import Mathlib

/-!
Verification of the IRONSmith HLIR builder, XML expander and graph builder
against their natural-language specification.

The definitions below are a shallow embedding of the Python sources:

  * `src/aiecad_compiler/hlir/builder.py` (ProgramBuilder, RuntimeBuilder,
    `_register_component`, `_check_dependencies`, `_remove_component`,
    `_lookup_by_id`) together with the entity model of
    `src/plugins/core/aiecad_compiler/hlir/core.py`,
    `src/plugins/core/aiecad_compiler/hlir/types.py` and
    `src/aiecad_compiler/hlir/operations.py`;
  * `src/aiecad_compiler/hlir/builder_result.py` (BuilderResult);
  * `src/aiecad_compiler/graph_builder/XMLGenerator.py` (NamingConventions,
    ExpressionExpander, MethodChainBuilder, the split/join transforms and
    type-divisor extraction);
  * `src/aiecad_compiler/graph_builder/GraphDriver.py` (scope stack,
    expression walker `var` case, `_link`, and the `_func_if` relabelling).

Python dictionaries are modelled as association lists with Python's dict
semantics (insert overwrites in place, iteration in insertion order).
Python object identity is irrelevant to the verified operations; the
builder's `_component_to_id` table is written but never read by any of the
operations modelled here, so it is omitted.  `uuid4` id generation is
modelled by a fresh counter rendered as a string.
-/

set_option maxRecDepth 10000

namespace IRONSmith

/-! ## Python-style dictionaries (association lists, insertion order) -/

/-- A Python dict: association list, key order = insertion order.
Python dicts never hold duplicate keys; operations below implement
Python's behaviour (overwrite-in-place on insert, insertion-order
iteration) on such duplicate-free lists. -/
abbrev Dict (K V : Type) := List (K × V)

/-- Python `k in d`. -/
def dmem [DecidableEq K] (m : Dict K V) (k : K) : Bool :=
  m.any (fun p => decide (p.1 = k))

/-- Python `d.get(k)` / `d[k]`. -/
def dget? [DecidableEq K] (m : Dict K V) (k : K) : Option V :=
  (m.find? (fun p => decide (p.1 = k))).map Prod.snd

/-- Python `d[k] = v`: overwrite in place, else append at the end. -/
def dinsert [DecidableEq K] (m : Dict K V) (k : K) (v : V) : Dict K V :=
  match m with
  | [] => [(k, v)]
  | p :: t => if p.1 = k then (k, v) :: t else p :: dinsert t k v

/-- Python `del d[k]` (no-op when the key is absent). -/
def ddel [DecidableEq K] (m : Dict K V) (k : K) : Dict K V :=
  m.filter (fun p => !decide (p.1 = k))

/-- The keys of a dict, in insertion order (Python `d.keys()`). -/
def dkeys (m : Dict K V) : List K := m.map Prod.fst

/-- Number of entries stored under key `k`. -/
def dcount [DecidableEq K] (m : Dict K V) (k : K) : Nat :=
  (m.filter (fun p => decide (p.1 = k))).length

@[simp] theorem dmem_nil [DecidableEq K] (k : K) : dmem ([] : Dict K V) k = false := rfl

@[simp] theorem dmem_cons [DecidableEq K] (p : K × V) (t : Dict K V) (k : K) :
    dmem (p :: t) k = (decide (p.1 = k) || dmem t k) := rfl

@[simp] theorem dget?_nil [DecidableEq K] (k : K) : dget? ([] : Dict K V) k = none := rfl

theorem dget?_cons [DecidableEq K] (p : K × V) (t : Dict K V) (k : K) :
    dget? (p :: t) k = if p.1 = k then some p.2 else dget? t k := by
  simp only [dget?, List.find?]
  by_cases h : p.1 = k <;> simp [h]

theorem dget?_eq_none_of_not_dmem [DecidableEq K] (m : Dict K V) (k : K)
    (h : dmem m k = false) : dget? m k = none := by
  induction m with
  | nil => rfl
  | cons p t ih =>
    simp only [dmem_cons, Bool.or_eq_false_iff, decide_eq_false_iff_not] at h
    rw [dget?_cons, if_neg h.1, ih h.2]

theorem dmem_of_dget?_eq_some [DecidableEq K] (m : Dict K V) (k : K) (v : V)
    (h : dget? m k = some v) : dmem m k = true := by
  by_cases hm : dmem m k
  · exact hm
  · rw [dget?_eq_none_of_not_dmem m k (by simpa using hm)] at h
    cases h

theorem dget?_dinsert_self [DecidableEq K] (m : Dict K V) (k : K) (v : V) :
    dget? (dinsert m k v) k = some v := by
  induction m with
  | nil => simp [dinsert, dget?_cons]
  | cons p t ih =>
    simp only [dinsert]
    by_cases h : p.1 = k
    · simp [h, dget?_cons]
    · rw [if_neg h, dget?_cons, if_neg h, ih]

theorem dget?_dinsert_ne [DecidableEq K] (m : Dict K V) (k k2 : K) (v : V)
    (h : k2 ≠ k) : dget? (dinsert m k v) k2 = dget? m k2 := by
  induction m with
  | nil => simp [dinsert, dget?_cons, Ne.symm h]
  | cons p t ih =>
    simp only [dinsert]
    by_cases hp : p.1 = k
    · rw [if_pos hp, dget?_cons, dget?_cons, hp]
      simp [Ne.symm h]
    · rw [if_neg hp, dget?_cons, dget?_cons, ih]

theorem dmem_dinsert_self [DecidableEq K] (m : Dict K V) (k : K) (v : V) :
    dmem (dinsert m k v) k = true := by
  induction m with
  | nil => simp [dinsert]
  | cons p t ih =>
    simp only [dinsert]
    by_cases hp : p.1 = k
    · simp [hp]
    · simp [hp, ih]

theorem dmem_dinsert_ne [DecidableEq K] (m : Dict K V) (k k2 : K) (v : V)
    (h : k2 ≠ k) : dmem (dinsert m k v) k2 = dmem m k2 := by
  induction m with
  | nil => simp [dinsert, Ne.symm h]
  | cons p t ih =>
    simp only [dinsert]
    by_cases hp : p.1 = k
    · simp [hp, Ne.symm h]
    · simp [hp, ih]

theorem dget?_ddel_ne [DecidableEq K] (m : Dict K V) (k k2 : K)
    (h : k2 ≠ k) : dget? (ddel m k) k2 = dget? m k2 := by
  induction m with
  | nil => rfl
  | cons p t ih =>
    simp only [ddel, List.filter_cons] at *
    by_cases hpk : p.1 = k
    · have hp2 : ¬ (p.1 = k2) := by
        rw [hpk]; exact fun he => h he.symm
      rw [if_neg (by simp [hpk])]
      rw [dget?_cons, if_neg hp2]
      exact ih
    · rw [if_pos (by simp [hpk])]
      rw [dget?_cons, dget?_cons]
      by_cases hp2 : p.1 = k2
      · simp [hp2]
      · rw [if_neg hp2, if_neg hp2, ih]

theorem dcount_eq_zero_of_not_dmem [DecidableEq K] (m : Dict K V) (k : K)
    (h : dmem m k = false) : dcount m k = 0 := by
  induction m with
  | nil => rfl
  | cons p t ih =>
    simp only [dmem_cons, Bool.or_eq_false_iff, decide_eq_false_iff_not] at h
    simp only [dcount, List.filter_cons, h.1, decide_False, Bool.false_eq_true,
      ite_false] at *
    exact ih h.2

theorem dcount_ddel [DecidableEq K] (m : Dict K V) (k k2 : K) (h : k2 ≠ k) :
    dcount (ddel m k) k2 = dcount m k2 := by
  unfold dcount ddel
  congr 1
  induction m with
  | nil => rfl
  | cons p t ih =>
    by_cases hp2 : p.1 = k2
    · have hpk : ¬ (p.1 = k) := by
        rw [hp2]; exact h
      simp [List.filter_cons, hp2, hpk, ih, h]
    · by_cases hpk : p.1 = k <;> simp [List.filter_cons, hp2, hpk, ih, h, Ne.symm h]

/-- A dict whose keys are pairwise distinct (true of every Python dict)
has at most one entry per key; after an insert the key occurs exactly once.
We track distinctness via `dcount _ k ≤ 1` for the key of interest. -/
theorem dcount_dinsert_self [DecidableEq K] (m : Dict K V) (k : K) (v : V)
    (h : dcount m k ≤ 1) : dcount (dinsert m k v) k = 1 := by
  induction m with
  | nil => simp [dinsert, dcount, List.filter]
  | cons p t ih =>
    simp only [dinsert]
    by_cases hp : p.1 = k
    · simp only [dcount, List.filter_cons, hp, decide_True, ite_true,
        List.length_cons] at h ⊢
      omega
    · simp only [hp, ite_false, dcount, List.filter_cons, decide_False,
        Bool.false_eq_true, ite_true] at h ⊢
      exact ih h

theorem dcount_le_one_of_dmem_false [DecidableEq K] (m : Dict K V) (k : K)
    (h : dmem m k = false) : dcount m k ≤ 1 := by
  rw [dcount_eq_zero_of_not_dmem m k h]
  omega

/-! ## HLIR data model

From `plugins/core/aiecad_compiler/hlir/types.py`,
`plugins/core/aiecad_compiler/hlir/core.py` and
`aiecad_compiler/hlir/operations.py`.  Python `Union[int, str]` values
(symbolic dimensions, offsets) are `IntOrStr`; `Union[AnyType, str]` type
references are `TypeRef`.  Dataclass `==` is structural equality, which the
derived `DecidableEq` mirrors.  Metadata dictionaries hold strings (the XML
loaders only ever store attribute strings there); no verified operation
inspects a metadata value. -/

/-- `Union[int, str]`: a concrete integer or a symbolic textual expression. -/
inductive IntOrStr
  | num (n : Int)
  | txt (s : String)
deriving DecidableEq, Repr

/-- `DataType` enum of `types.py`. -/
inductive DataType
  | int8 | int16 | int32 | int64
  | uint8 | uint16 | uint32 | uint64
  | float16 | float32 | float64 | bfloat16
deriving DecidableEq, Repr

/-- `TensorType` of `types.py`: shape (possibly symbolic), dtype, layout. -/
structure TensorType where
  shape : List IntOrStr
  dtype : DataType
  layout : Option String := none
deriving DecidableEq, Repr

/-- `make_tensor_type` of `types.py` (dtype already parsed: `parse_dtype`
is total on the valid dtype names and raises otherwise). -/
def make_tensor_type (shape : List IntOrStr) (dtype : DataType)
    (layout : Option String := none) : TensorType :=
  { shape := shape, dtype := dtype, layout := layout }

/-- `AnyType`/`Union[AnyType, str]`: scalar, embedded tensor, or name. -/
inductive TypeRef
  | scalar (dtype : DataType)
  | tensor (t : TensorType)
  | name (s : String)
deriving DecidableEq, Repr

/-- `TileKind` enum of `core.py`. -/
inductive TileKind
  | shim | mem | compute
deriving DecidableEq, Repr

/-- `Tile` dataclass of `core.py`. -/
structure Tile where
  name : String
  kind : TileKind
  x : Int
  y : Int
  metadata : Dict String String := []
deriving DecidableEq, Repr

/-- `ObjectFifo` dataclass of `core.py`.  `producer` is `Optional[Tile]`
(the builder's resolution can leave `None`); consumers are resolved tiles. -/
structure ObjectFifo where
  name : String
  obj_type : TypeRef
  depth : Int := 2
  producer : Option Tile := none
  consumers : List Tile := []
  metadata : Dict String String := []
deriving DecidableEq, Repr

/-- `Union[ObjectFifo, str]` as stored in operations and bindings. -/
inductive FifoRef
  | ofifo (f : ObjectFifo)
  | name (s : String)
deriving DecidableEq, Repr

/-- `Union[Tile, str]` as stored in placements. -/
inductive TilePlace
  | tile (t : Tile)
  | name (s : String)
deriving DecidableEq, Repr

/-- `SplitOperation` of `operations.py`. -/
structure SplitOperation where
  name : String
  source : FifoRef
  num_outputs : Int
  output_type : TypeRef
  output_names : List String
  offsets : List IntOrStr
  placement : TilePlace
  metadata : Dict String String := []
deriving DecidableEq, Repr

/-- `JoinOperation` of `operations.py`. -/
structure JoinOperation where
  name : String
  dest : FifoRef
  num_inputs : Int
  input_type : TypeRef
  input_names : List String
  offsets : List IntOrStr
  placement : TilePlace
  metadata : Dict String String := []
deriving DecidableEq, Repr

/-- `ForwardOperation` of `operations.py`. -/
structure ForwardOperation where
  name : String
  source : FifoRef
  placement : Option TilePlace := none
  metadata : Dict String String := []
deriving DecidableEq, Repr

/-- `Acquire` of `core.py`. -/
structure Acquire where
  fifo_param : String
  count : Int
  local_var : String
deriving DecidableEq, Repr

/-- `Release` of `core.py`. -/
structure Release where
  fifo_param : String
  count : Int
deriving DecidableEq, Repr

/-- `KernelCall` of `core.py`. -/
structure KernelCall where
  kernel_param : String
  args : List String
deriving DecidableEq, Repr

/-- `CoreFunction` of `core.py`. -/
structure CoreFunction where
  name : String
  parameters : List String
  acquires : List Acquire := []
  kernel_call : Option KernelCall := none
  releases : List Release := []
  metadata : Dict String String := []
deriving DecidableEq, Repr

/-- `ExternalKernel` dataclass of `core.py`. -/
structure ExternalKernel where
  name : String
  kernel_name : String
  source_file : String
  arg_types : List TypeRef
  include_dirs : List String := []
  metadata : Dict String String := []
deriving DecidableEq, Repr

/-- `Union[CoreFunction, str]` as stored in workers. -/
inductive CoreFnRef
  | corefn (c : CoreFunction)
  | name (s : String)
deriving DecidableEq, Repr

/-- `FifoAccessMode` enum of `core.py`. -/
inductive FifoAccessMode
  | prod | cons
deriving DecidableEq, Repr

/-- `FifoBinding` of `core.py`. -/
structure FifoBinding where
  fifo : FifoRef
  mode : FifoAccessMode
  index : Option Int := none
deriving DecidableEq, Repr

/-- A processed worker argument: `FifoBinding` or an opaque reference
string (`Worker.fn_args` entries after `add_worker` processing). -/
inductive WorkerArg
  | binding (b : FifoBinding)
  | ref (s : String)
deriving DecidableEq, Repr

/-- `Worker` of `core.py`. -/
structure Worker where
  name : String
  core_fn : CoreFnRef
  fn_args : List WorkerArg
  placement : TilePlace
  metadata : Dict String String := []
deriving DecidableEq, Repr

/-- `TensorAccessPattern` of `operations.py`. -/
structure TensorAccessPattern where
  tensor_dims : List IntOrStr
  offset : IntOrStr
  sizes : List IntOrStr
  strides : List IntOrStr
  metadata : Dict String String := []
deriving DecidableEq, Repr

/-- `RuntimeFill` of `core.py`. -/
structure RuntimeFill where
  placement : TilePlace
  fifo : FifoRef
  source_param : String
  tap : Option TensorAccessPattern := none
  metadata : Dict String String := []
deriving DecidableEq, Repr

/-- `RuntimeDrain` of `core.py`. -/
structure RuntimeDrain where
  placement : TilePlace
  fifo : FifoRef
  dest_param : String
  wait : Bool := true
  tap : Option TensorAccessPattern := none
  metadata : Dict String String := []
deriving DecidableEq, Repr

/-- `Union[RuntimeFill, RuntimeDrain]` (the `operations` list). -/
inductive RuntimeOp
  | fill (f : RuntimeFill)
  | drain (d : RuntimeDrain)
deriving DecidableEq, Repr

/-- `Union[Worker, str]` in the runtime start list. -/
inductive WorkerRef
  | worker (w : Worker)
  | name (s : String)
deriving DecidableEq, Repr

/-- `RuntimeSequence` of `core.py`. -/
structure RuntimeSequence where
  name : String
  input_types : List TypeRef := []
  output_types : List TypeRef := []
  param_names : List String := []
  workers : List WorkerRef := []
  operations : List RuntimeOp := []
  metadata : Dict String String := []
deriving DecidableEq, Repr

/-- The possible values of a `Symbol` (its `value: Any` field only ever
holds these in the builder): a plain constant, a tensor type, or a
wrapped FIFO operation. -/
inductive Value
  | vInt (n : Int)
  | vStr (s : String)
  | vTensor (t : TensorType)
  | vSplit (s : SplitOperation)
  | vJoin (j : JoinOperation)
  | vForward (f : ForwardOperation)
deriving DecidableEq, Repr

/-- `Symbol` dataclass of `core.py`. -/
structure Symbol where
  name : String
  value : Value
  type_hint : Option String := none
  is_constant : Bool := false
deriving DecidableEq, Repr

/-- `Program` dataclass of `core.py`. -/
structure Program where
  name : String
  symbols : Dict String Symbol := []
  tiles : Dict String Tile := []
  fifos : Dict String ObjectFifo := []
  external_kernels : Dict String ExternalKernel := []
  core_functions : Dict String CoreFunction := []
  workers : Dict String Worker := []
  runtime : Option RuntimeSequence := none
  metadata : Dict String String := []
deriving DecidableEq, Repr

/-! ## BuilderResult (`builder_result.py`) and the ID registry -/

/-- `ErrorCode` enum of `builder_result.py`. -/
inductive ErrorCode
  | SUCCESS | DUPLICATE_NAME | NOT_FOUND
  | DEPENDENCY_EXISTS | INVALID_PARAMETER | INVALID_REFERENCE
deriving DecidableEq, Repr

/-- Entity payloads carried in results and in the registry: the `Any`
component slot of `BuilderResult` and `_id_map` only ever holds these. -/
inductive Entity
  | sym (s : Symbol)
  | tensorTy (t : TensorType)
  | tile (t : Tile)
  | fifo (f : ObjectFifo)
  | splitOp (s : SplitOperation)
  | joinOp (j : JoinOperation)
  | forwardOp (f : ForwardOperation)
  | kernel (k : ExternalKernel)
  | corefn (c : CoreFunction)
  | worker (w : Worker)
deriving DecidableEq, Repr

/-- Python `getattr(component, 'name', None)`.  A bare `TensorType` has no
`name` attribute; every other entity does. -/
def Entity.getName : Entity → Option String
  | .sym s => some s.name
  | .tensorTy _ => none
  | .tile t => some t.name
  | .fifo f => some f.name
  | .splitOp s => some s.name
  | .joinOp j => some j.name
  | .forwardOp f => some f.name
  | .kernel k => some k.name
  | .corefn c => some c.name
  | .worker w => some w.name

/-- `BuilderResult` dataclass of `builder_result.py`. -/
structure BuilderResult where
  success : Bool
  id : Option String := none
  component : Option Entity := none
  error_code : Option ErrorCode := none
  error_message : Option String := none
  dependencies : Option (List String) := none
deriving DecidableEq, Repr

/-- `BuilderResult.ok`. -/
def BuilderResult.ok (component_id : String) (component : Entity) : BuilderResult :=
  { success := true, id := some component_id, component := some component,
    error_code := some .SUCCESS }

/-- `BuilderResult.error`. -/
def BuilderResult.err (code : ErrorCode) (message : String)
    (dependencies : Option (List String) := none) : BuilderResult :=
  { success := false, error_code := some code, error_message := some message,
    dependencies := dependencies }

/-- `BuilderResult.duplicate`. -/
def BuilderResult.duplicate (name component_type existing_id : String) : BuilderResult :=
  BuilderResult.err .DUPLICATE_NAME
    (component_type ++ " '" ++ name ++ "' already exists with ID " ++ existing_id)

/-- `BuilderResult.not_found`. -/
def BuilderResult.notFound (component_id : String) : BuilderResult :=
  BuilderResult.err .NOT_FOUND
    ("Component with ID '" ++ component_id ++ "' not found")

/-- `BuilderResult.has_dependencies`. -/
def BuilderResult.hasDependencies (component_id component_type : String)
    (deps : List String) : BuilderResult :=
  BuilderResult.err .DEPENDENCY_EXISTS
    ("Cannot remove " ++ component_type ++ " '" ++ component_id ++ "': used by "
      ++ String.intercalate ", " deps)
    (some deps)

/-- The `ProgramBuilder` state: the program plus the ID registry.
`_component_to_id` (a reverse cache keyed on Python object identity) is
written but never read by any operation modelled here and is omitted.
`uuid4` is modelled by the fresh counter `nextId`. -/
structure PBuilder where
  program : Program
  idMap : Dict String (String × Entity) := []
  nameIndex : Dict (String × String) String := []
  nextId : Nat := 0
deriving DecidableEq, Repr

/-- `ProgramBuilder.__init__`. -/
def PBuilder.init (name : String) : PBuilder :=
  { program := { name := name } }

/-- `_generate_id` (uuid4 rendered as a fresh string). -/
def PBuilder.generateId (b : PBuilder) : String :=
  "uuid-" ++ toString b.nextId

/-- Python truthiness of an optional string argument (`if provided_id:`
is false for `None` and for the empty string). -/
def pyTruthy : Option String → Option String
  | some "" => none
  | o => o

/-- `ProgramBuilder._register_component` (without the write-only
`_component_to_id` bookkeeping; the unused `inject` parameter is dropped). -/
def register_component (b : PBuilder) (comp_type name : String)
    (component : Entity) (provided_id : Option String) : PBuilder × String :=
  let name_key := (comp_type, name)
  match pyTruthy provided_id with
  | some pid =>
    match dget? b.idMap pid with
    | some (old_type, old_component) =>
      -- update: replace the component but keep the same ID
      let nameIndex :=
        if old_type = comp_type then
          match old_component.getName with
          | some old_name =>
            if old_name ≠ "" ∧ old_name ≠ name then
              -- `if old_name_key in self._name_index: del ...` (ddel is a no-op when absent)
              ddel b.nameIndex (comp_type, old_name)
            else b.nameIndex
          | none => b.nameIndex
        else b.nameIndex
      ({ b with idMap := dinsert b.idMap pid (comp_type, component),
                nameIndex := dinsert nameIndex name_key pid }, pid)
    | none =>
      -- provided ID does not exist: use it as new
      ({ b with idMap := dinsert b.idMap pid (comp_type, component),
                nameIndex := dinsert b.nameIndex name_key pid }, pid)
  | none =>
    match dget? b.nameIndex name_key with
    | some existing_id => (b, existing_id)
    | none =>
      let comp_id := b.generateId
      ({ b with nextId := b.nextId + 1,
                idMap := dinsert b.idMap comp_id (comp_type, component),
                nameIndex := dinsert b.nameIndex name_key comp_id }, comp_id)

/-- `_lookup_by_id`. -/
def lookup_by_id (b : PBuilder) (comp_id : String) : BuilderResult :=
  match dget? b.idMap comp_id with
  | none => BuilderResult.notFound comp_id
  | some (_, component) => BuilderResult.ok comp_id component

/-- `_lookup_by_name`. -/
def lookup_by_name (b : PBuilder) (comp_type name : String) : BuilderResult :=
  match dget? b.nameIndex (comp_type, name) with
  | none => BuilderResult.err .NOT_FOUND (comp_type ++ " '" ++ name ++ "' not found")
  | some comp_id =>
    match dget? b.idMap comp_id with
    | some (_, component) => BuilderResult.ok comp_id component
    | none => BuilderResult.ok comp_id (.sym ⟨"", .vInt 0, none, false⟩)
      -- unreachable on builder-produced states: the name index only holds registered ids

/-! ## ProgramBuilder `add_*` operations (`builder.py`)

Every method shares the same skeleton: when a truthy `provided_id` is
present in the registry, remove the old component's name from the target
program map (update path); otherwise a name already present in that map is
a duplicate error; then construct, store, register and return `ok`. -/

/-- Python `self.program.fifos.get(x, x)` on a `Union[ObjectFifo, str]`. -/
def resolveFifoKeep (fifos : Dict String ObjectFifo) : FifoRef → FifoRef
  | .name s =>
    match dget? fifos s with
    | some f => .ofifo f
    | none => .name s
  | r => r

/-- Python `self.program.tiles.get(x, x)` on a `Union[Tile, str]`. -/
def resolveTileKeep (tiles : Dict String Tile) : TilePlace → TilePlace
  | .name s =>
    match dget? tiles s with
    | some t => .tile t
    | none => .name s
  | r => r

/-- Python `self.program.core_functions.get(x, x)`. -/
def resolveCoreFnKeep (fns : Dict String CoreFunction) : CoreFnRef → CoreFnRef
  | .name s =>
    match dget? fns s with
    | some c => .corefn c
    | none => .name s
  | r => r

/-- The common tail of every `add_*` method: register the component
(with the provided id when any) and return `ok(comp_id, result)`. -/
def add_finish (b2 : PBuilder) (ct n : String) (regEnt resEnt : Entity)
    (pid? : Option String) : PBuilder × BuilderResult :=
  let reg := register_component b2 ct n regEnt pid?
  (reg.1, BuilderResult.ok reg.2 resEnt)

/-- The producer resolution of `add_fifo`:
`if isinstance(producer, str): producer = self.program.tiles.get(producer)`
(an unresolved name becomes `None`). -/
def resolveProducer (tiles : Dict String Tile) : Option TilePlace → Option Tile
  | some (.name s) => dget? tiles s
  | some (.tile t) => some t
  | none => none

/-- The consumer resolution of `add_fifo`: resolve names against the
tiles map and keep only truthy results (`if c:`), so unresolved names
are dropped. -/
def resolveConsumers (tiles : Dict String Tile)
    (consumers : Option (List TilePlace)) : List Tile :=
  (consumers.getD []).filterMap (fun c =>
    match c with
    | .name s => dget? tiles s
    | .tile t => some t)

/-- `ProgramBuilder.add_symbol`. -/
def add_symbol (b : PBuilder) (name : String) (value : Value)
    (type_hint : Option String := none) (is_constant : Bool := false)
    (provided_id : Option String := none) : PBuilder × BuilderResult :=
  let comp_type := if is_constant then "constant" else "symbol"
  let pid? := pyTruthy provided_id
  let step1 : Option PBuilder :=
    match pid? with
    | some pid =>
      match dget? b.idMap pid with
      | some (_, old_component) =>
        some (match old_component.getName with
          | some old_name =>
            if old_name ≠ "" ∧ dmem b.program.symbols old_name then
              { b with program :=
                  { b.program with symbols := ddel b.program.symbols old_name } }
            else b
          | none => b)
      | none => if dmem b.program.symbols name then none else some b
    | none => if dmem b.program.symbols name then none else some b
  match step1 with
  | none =>
    let existing_id := (dget? b.nameIndex (comp_type, name)).getD ""
    (b, BuilderResult.duplicate name comp_type existing_id)
  | some b1 =>
    let symbol : Symbol :=
      { name := name, value := value, type_hint := type_hint, is_constant := is_constant }
    let b2 := { b1 with program :=
        { b1.program with symbols := dinsert b1.program.symbols name symbol } }
    add_finish b2 comp_type name (.sym symbol) (.sym symbol) pid?

/-- `ProgramBuilder.add_constant`. -/
def add_constant (b : PBuilder) (name : String) (value : Value)
    (type_hint : Option String := none)
    (provided_id : Option String := none) : PBuilder × BuilderResult :=
  add_symbol b name value type_hint true provided_id

/-- `ProgramBuilder.add_tensor_type`. -/
def add_tensor_type (b : PBuilder) (name : String) (shape : List IntOrStr)
    (dtype : DataType) (layout : Option String := none)
    (provided_id : Option String := none) : PBuilder × BuilderResult :=
  let pid? := pyTruthy provided_id
  let step1 : Option PBuilder :=
    match pid? with
    | some pid =>
      match dget? b.idMap pid with
      | some (_, old_component) =>
        some (match old_component.getName with
          | some old_name =>
            if old_name ≠ "" ∧ dmem b.program.symbols old_name then
              { b with program :=
                  { b.program with symbols := ddel b.program.symbols old_name } }
            else b
          | none => b)
      | none => if dmem b.program.symbols name then none else some b
    | none => if dmem b.program.symbols name then none else some b
  match step1 with
  | none =>
    let existing_id := (dget? b.nameIndex ("tensor_type", name)).getD ""
    (b, BuilderResult.duplicate name "tensor_type" existing_id)
  | some b1 =>
    let tensor_ty := make_tensor_type shape dtype layout
    let symbol : Symbol :=
      { name := name, value := .vTensor tensor_ty, type_hint := some "TensorType" }
    let b2 := { b1 with program :=
        { b1.program with symbols := dinsert b1.program.symbols name symbol } }
    add_finish b2 "tensor_type" name (.sym symbol) (.tensorTy tensor_ty) pid?

/-- `ProgramBuilder.add_tile` (the `kind` string has already been parsed
through `TileKind(kind.lower())`, which is total on the valid kinds). -/
def add_tile (b : PBuilder) (name : String) (kind : TileKind) (x y : Int)
    (provided_id : Option String := none)
    (metadata : Dict String String := []) : PBuilder × BuilderResult :=
  let pid? := pyTruthy provided_id
  let step1 : Option PBuilder :=
    match pid? with
    | some pid =>
      match dget? b.idMap pid with
      | some (_, old_component) =>
        some (match old_component.getName with
          | some old_name =>
            if old_name ≠ "" ∧ dmem b.program.tiles old_name then
              { b with program :=
                  { b.program with tiles := ddel b.program.tiles old_name } }
            else b
          | none => b)
      | none => if dmem b.program.tiles name then none else some b
    | none => if dmem b.program.tiles name then none else some b
  match step1 with
  | none =>
    let existing_id := (dget? b.nameIndex ("tile", name)).getD ""
    (b, BuilderResult.duplicate name "tile" existing_id)
  | some b1 =>
    let tile : Tile := { name := name, kind := kind, x := x, y := y, metadata := metadata }
    let b2 := { b1 with program :=
        { b1.program with tiles := dinsert b1.program.tiles name tile } }
    add_finish b2 "tile" name (.tile tile) (.tile tile) pid?

/-- `ProgramBuilder.add_fifo`.  Note the asymmetric reference handling of
the source: `producer` is resolved with `tiles.get(producer)` (no default,
an unresolved name becomes `None`) and unresolved consumer names are
dropped by the `if c:` filter. -/
def add_fifo (b : PBuilder) (name : String) (obj_type : TypeRef)
    (depth : Int := 2) (producer : Option TilePlace := none)
    (consumers : Option (List TilePlace) := none)
    (provided_id : Option String := none)
    (metadata : Dict String String := []) : PBuilder × BuilderResult :=
  let pid? := pyTruthy provided_id
  let step1 : Option PBuilder :=
    match pid? with
    | some pid =>
      match dget? b.idMap pid with
      | some (_, old_component) =>
        some (match old_component.getName with
          | some old_name =>
            if old_name ≠ "" ∧ dmem b.program.fifos old_name then
              { b with program :=
                  { b.program with fifos := ddel b.program.fifos old_name } }
            else b
          | none => b)
      | none => if dmem b.program.fifos name then none else some b
    | none => if dmem b.program.fifos name then none else some b
  match step1 with
  | none =>
    let existing_id := (dget? b.nameIndex ("fifo", name)).getD ""
    (b, BuilderResult.duplicate name "fifo" existing_id)
  | some b1 =>
    let producerR : Option Tile := resolveProducer b1.program.tiles producer
    let consumersR : List Tile := resolveConsumers b1.program.tiles consumers
    let fifo : ObjectFifo :=
      { name := name, obj_type := obj_type, depth := depth,
        producer := producerR, consumers := consumersR, metadata := metadata }
    let b2 := { b1 with program :=
        { b1.program with fifos := dinsert b1.program.fifos name fifo } }
    add_finish b2 "fifo" name (.fifo fifo) (.fifo fifo) pid?

/-- `ProgramBuilder.add_fifo_split`.  The split is stored as a `Symbol`
wrapping the operation; the duplicate check is against `program.symbols`. -/
def add_fifo_split (b : PBuilder) (name : String) (source : FifoRef)
    (num_outputs : Int) (output_type : TypeRef) (output_names : List String)
    (offsets : List IntOrStr) (placement : TilePlace)
    (provided_id : Option String := none)
    (metadata : Dict String String := []) : PBuilder × BuilderResult :=
  let pid? := pyTruthy provided_id
  let step1 : Option PBuilder :=
    match pid? with
    | some pid =>
      match dget? b.idMap pid with
      | some (_, old_component) =>
        some (match old_component.getName with
          | some old_name =>
            if old_name ≠ "" ∧ dmem b.program.symbols old_name then
              { b with program :=
                  { b.program with symbols := ddel b.program.symbols old_name } }
            else b
          | none => b)
      | none => if dmem b.program.symbols name then none else some b
    | none => if dmem b.program.symbols name then none else some b
  match step1 with
  | none =>
    let existing_id := (dget? b.nameIndex ("fifo_split", name)).getD ""
    (b, BuilderResult.duplicate name "fifo_split" existing_id)
  | some b1 =>
    let sourceR := resolveFifoKeep b1.program.fifos source
    let placementR := resolveTileKeep b1.program.tiles placement
    let split_op : SplitOperation :=
      { name := name, source := sourceR, num_outputs := num_outputs,
        output_type := output_type, output_names := output_names,
        offsets := offsets, placement := placementR, metadata := metadata }
    let symbol : Symbol :=
      { name := name, value := .vSplit split_op, type_hint := some "SplitOperation" }
    let b2 := { b1 with program :=
        { b1.program with symbols := dinsert b1.program.symbols name symbol } }
    add_finish b2 "fifo_split" name (.sym symbol) (.splitOp split_op) pid?

/-- `ProgramBuilder.add_fifo_join`. -/
def add_fifo_join (b : PBuilder) (name : String) (dest : FifoRef)
    (num_inputs : Int) (input_type : TypeRef) (input_names : List String)
    (offsets : List IntOrStr) (placement : TilePlace)
    (provided_id : Option String := none)
    (metadata : Dict String String := []) : PBuilder × BuilderResult :=
  let pid? := pyTruthy provided_id
  let step1 : Option PBuilder :=
    match pid? with
    | some pid =>
      match dget? b.idMap pid with
      | some (_, old_component) =>
        some (match old_component.getName with
          | some old_name =>
            if old_name ≠ "" ∧ dmem b.program.symbols old_name then
              { b with program :=
                  { b.program with symbols := ddel b.program.symbols old_name } }
            else b
          | none => b)
      | none => if dmem b.program.symbols name then none else some b
    | none => if dmem b.program.symbols name then none else some b
  match step1 with
  | none =>
    let existing_id := (dget? b.nameIndex ("fifo_join", name)).getD ""
    (b, BuilderResult.duplicate name "fifo_join" existing_id)
  | some b1 =>
    let destR := resolveFifoKeep b1.program.fifos dest
    let placementR := resolveTileKeep b1.program.tiles placement
    let join_op : JoinOperation :=
      { name := name, dest := destR, num_inputs := num_inputs,
        input_type := input_type, input_names := input_names,
        offsets := offsets, placement := placementR, metadata := metadata }
    let symbol : Symbol :=
      { name := name, value := .vJoin join_op, type_hint := some "JoinOperation" }
    let b2 := { b1 with program :=
        { b1.program with symbols := dinsert b1.program.symbols name symbol } }
    add_finish b2 "fifo_join" name (.sym symbol) (.joinOp join_op) pid?

/-- `ProgramBuilder.add_fifo_forward`. -/
def add_fifo_forward (b : PBuilder) (name : String) (source : FifoRef)
    (provided_id : Option String := none)
    (metadata : Dict String String := []) : PBuilder × BuilderResult :=
  let pid? := pyTruthy provided_id
  let step1 : Option PBuilder :=
    match pid? with
    | some pid =>
      match dget? b.idMap pid with
      | some (_, old_component) =>
        some (match old_component.getName with
          | some old_name =>
            if old_name ≠ "" ∧ dmem b.program.symbols old_name then
              { b with program :=
                  { b.program with symbols := ddel b.program.symbols old_name } }
            else b
          | none => b)
      | none => if dmem b.program.symbols name then none else some b
    | none => if dmem b.program.symbols name then none else some b
  match step1 with
  | none =>
    let existing_id := (dget? b.nameIndex ("fifo_forward", name)).getD ""
    (b, BuilderResult.duplicate name "fifo_forward" existing_id)
  | some b1 =>
    let sourceR := resolveFifoKeep b1.program.fifos source
    let forward_op : ForwardOperation :=
      { name := name, source := sourceR, metadata := metadata }
    let symbol : Symbol :=
      { name := name, value := .vForward forward_op, type_hint := some "ForwardOperation" }
    let b2 := { b1 with program :=
        { b1.program with symbols := dinsert b1.program.symbols name symbol } }
    add_finish b2 "fifo_forward" name (.sym symbol) (.forwardOp forward_op) pid?

/-- `ProgramBuilder.add_external_kernel`. -/
def add_external_kernel (b : PBuilder) (name kernel_name source_file : String)
    (arg_types : List TypeRef) (include_dirs : Option (List String) := none)
    (provided_id : Option String := none)
    (metadata : Dict String String := []) : PBuilder × BuilderResult :=
  let pid? := pyTruthy provided_id
  let step1 : Option PBuilder :=
    match pid? with
    | some pid =>
      match dget? b.idMap pid with
      | some (_, old_component) =>
        some (match old_component.getName with
          | some old_name =>
            if old_name ≠ "" ∧ dmem b.program.external_kernels old_name then
              { b with program :=
                  { b.program with external_kernels := ddel b.program.external_kernels old_name } }
            else b
          | none => b)
      | none => if dmem b.program.external_kernels name then none else some b
    | none => if dmem b.program.external_kernels name then none else some b
  match step1 with
  | none =>
    let existing_id := (dget? b.nameIndex ("external_kernel", name)).getD ""
    (b, BuilderResult.duplicate name "external_kernel" existing_id)
  | some b1 =>
    let kernel : ExternalKernel :=
      { name := name, kernel_name := kernel_name, source_file := source_file,
        arg_types := arg_types, include_dirs := include_dirs.getD [],
        metadata := metadata }
    let b2 := { b1 with program :=
        { b1.program with external_kernels := dinsert b1.program.external_kernels name kernel } }
    add_finish b2 "external_kernel" name (.kernel kernel) (.kernel kernel) pid?

/-- `ProgramBuilder.add_core_function` (tuples already shaped as in the
Python signature; the loop converting tuples to `Acquire`/`KernelCall`/
`Release` objects is the `List.map`/`Option.map` below). -/
def add_core_function (b : PBuilder) (name : String) (parameters : List String)
    (acquires : Option (List (String × Int × String)) := none)
    (kernel_call : Option (String × List String) := none)
    (releases : Option (List (String × Int)) := none)
    (provided_id : Option String := none)
    (metadata : Dict String String := []) : PBuilder × BuilderResult :=
  let pid? := pyTruthy provided_id
  let step1 : Option PBuilder :=
    match pid? with
    | some pid =>
      match dget? b.idMap pid with
      | some (_, old_component) =>
        some (match old_component.getName with
          | some old_name =>
            if old_name ≠ "" ∧ dmem b.program.core_functions old_name then
              { b with program :=
                  { b.program with core_functions := ddel b.program.core_functions old_name } }
            else b
          | none => b)
      | none => if dmem b.program.core_functions name then none else some b
    | none => if dmem b.program.core_functions name then none else some b
  match step1 with
  | none =>
    let existing_id := (dget? b.nameIndex ("core_function", name)).getD ""
    (b, BuilderResult.duplicate name "core_function" existing_id)
  | some b1 =>
    let acquire_objs := (acquires.getD []).map
      (fun t => Acquire.mk t.1 t.2.1 t.2.2)
    let kernel_call_obj := kernel_call.map (fun t => KernelCall.mk t.1 t.2)
    let release_objs := (releases.getD []).map (fun t => Release.mk t.1 t.2)
    let func : CoreFunction :=
      { name := name, parameters := parameters, acquires := acquire_objs,
        kernel_call := kernel_call_obj, releases := release_objs,
        metadata := metadata }
    let b2 := { b1 with program :=
        { b1.program with core_functions := dinsert b1.program.core_functions name func } }
    add_finish b2 "core_function" name (.corefn func) (.corefn func) pid?

/-- An unprocessed `fn_args` entry of `add_worker`: a `(fifo, mode, index)`
tuple or a plain reference string (the `mode` string has already been
parsed through `FifoAccessMode(mode.lower())`, total on "cons"/"prod"). -/
inductive WorkerArgIn
  | tup (fifo : FifoRef) (mode : FifoAccessMode) (index : Option Int)
  | strRef (s : String)
deriving DecidableEq, Repr

/-- The `fn_args` processing loop of `add_worker`. -/
def processWorkerArg (fifos : Dict String ObjectFifo) : WorkerArgIn → WorkerArg
  | .tup fifo mode index =>
    .binding { fifo := resolveFifoKeep fifos fifo, mode := mode, index := index }
  | .strRef s => .ref s

/-- `ProgramBuilder.add_worker`. -/
def add_worker (b : PBuilder) (name : String) (core_fn : CoreFnRef)
    (fn_args : List WorkerArgIn) (placement : TilePlace)
    (provided_id : Option String := none)
    (metadata : Dict String String := []) : PBuilder × BuilderResult :=
  let pid? := pyTruthy provided_id
  let step1 : Option PBuilder :=
    match pid? with
    | some pid =>
      match dget? b.idMap pid with
      | some (_, old_component) =>
        some (match old_component.getName with
          | some old_name =>
            if old_name ≠ "" ∧ dmem b.program.workers old_name then
              { b with program :=
                  { b.program with workers := ddel b.program.workers old_name } }
            else b
          | none => b)
      | none => if dmem b.program.workers name then none else some b
    | none => if dmem b.program.workers name then none else some b
  match step1 with
  | none =>
    let existing_id := (dget? b.nameIndex ("worker", name)).getD ""
    (b, BuilderResult.duplicate name "worker" existing_id)
  | some b1 =>
    let core_fnR := resolveCoreFnKeep b1.program.core_functions core_fn
    let placementR := resolveTileKeep b1.program.tiles placement
    let processed_args : List WorkerArg :=
      fn_args.map (processWorkerArg b1.program.fifos)
    let worker : Worker :=
      { name := name, core_fn := core_fnR, fn_args := processed_args,
        placement := placementR, metadata := metadata }
    let b2 := { b1 with program :=
        { b1.program with workers := dinsert b1.program.workers name worker } }
    add_finish b2 "worker" name (.worker worker) (.worker worker) pid?

/-! ## RuntimeBuilder (`builder.py`) -/

/-- `RuntimeBuilder` state: parent builder plus the sequence under
construction. -/
structure RtBuilder where
  prog_builder : PBuilder
  runtime : RuntimeSequence
deriving DecidableEq, Repr

/-- `ProgramBuilder.create_runtime`. -/
def create_runtime (b : PBuilder) (name : String := "runtime") : RtBuilder :=
  { prog_builder := b, runtime := { name := name } }

/-- `RuntimeBuilder.add_fill` (`name` is accepted but not stored, as in
the source). -/
def RtBuilder.add_fill (rb : RtBuilder) (_name : String) (fifo : FifoRef)
    (source_param : String) (placement : TilePlace)
    (tap : Option TensorAccessPattern := none)
    (metadata : Dict String String := []) : RtBuilder :=
  let fifoR := resolveFifoKeep rb.prog_builder.program.fifos fifo
  let placementR := resolveTileKeep rb.prog_builder.program.tiles placement
  let fill_op : RuntimeFill :=
    { placement := placementR, fifo := fifoR, source_param := source_param,
      tap := tap, metadata := metadata }
  { rb with runtime :=
      { rb.runtime with operations := rb.runtime.operations ++ [.fill fill_op] } }

/-- `RuntimeBuilder.add_drain`. -/
def RtBuilder.add_drain (rb : RtBuilder) (_name : String) (fifo : FifoRef)
    (dest_param : String) (placement : TilePlace) (wait : Bool := true)
    (tap : Option TensorAccessPattern := none)
    (metadata : Dict String String := []) : RtBuilder :=
  let fifoR := resolveFifoKeep rb.prog_builder.program.fifos fifo
  let placementR := resolveTileKeep rb.prog_builder.program.tiles placement
  let drain_op : RuntimeDrain :=
    { placement := placementR, fifo := fifoR, dest_param := dest_param,
      wait := wait, tap := tap, metadata := metadata }
  { rb with runtime :=
      { rb.runtime with operations := rb.runtime.operations ++ [.drain drain_op] } }

/-! ## Dependency checking and removal (`builder.py`) -/

/-- `ProgramBuilder._check_dependencies`.  Python `==` between values of
different dataclasses (or between a string and a dataclass) is `False`;
the `break` statements make the kernel/worker scans stop at the first
match, hence the `find?`. -/
def check_dependencies (b : PBuilder) (_comp_id comp_type : String)
    (component : Entity) : List String :=
  if comp_type = "tensor_type" then
    let component_name := component.getName
    b.program.fifos.foldl (fun deps p =>
      match p.2.obj_type with
      | .name s =>
        if component_name = some s then deps ++ ["FIFO '" ++ p.1 ++ "'"] else deps
      | _ => deps) []
  else if comp_type = "tile" then
    b.program.workers.foldl (fun deps p =>
      match p.2.placement, component with
      | .tile wt, .tile t =>
        if wt = t then deps ++ ["Worker '" ++ p.2.name ++ "'"] else deps
      | _, _ => deps) []
  else if comp_type = "fifo" then
    b.program.workers.foldl (fun deps p =>
      let hit := p.2.fn_args.any (fun a =>
        match a, component with
        | .binding bind, .fifo f =>
          match bind.fifo with
          | .ofifo bf => bf == f
          | .name _ => false
        | _, _ => false)
      if hit then deps ++ ["Worker '" ++ p.2.name ++ "'"] else deps) []
  else if comp_type = "external_kernel" then
    match component with
    | .kernel kern =>
      b.program.core_functions.foldl (fun deps p =>
        let func := p.2
        if func.kernel_call.isSome ∧ func.parameters.length > 0 then
          match b.program.workers.find? (fun wp =>
            wp.2.core_fn == CoreFnRef.corefn func &&
            decide (wp.2.fn_args.length > 0) &&
            (match wp.2.fn_args.head? with
             | some (.ref s) => s == kern.name
             | _ => false)) with
          | some wp =>
            deps ++ ["Worker '" ++ wp.2.name ++ "' via CoreFunction '" ++ func.name ++ "'"]
          | none => deps
        else deps) []
    | _ => []
  else if comp_type = "core_function" then
    match component with
    | .corefn cf =>
      b.program.workers.foldl (fun deps p =>
        let hit := match p.2.core_fn with
          | .corefn wc => wc == cf
          | .name s => s == cf.name
        if hit then deps ++ ["Worker '" ++ p.2.name ++ "'"] else deps) []
    | _ => []
  else if comp_type = "worker" then
    match b.program.runtime, component with
    | some rt, .worker w =>
      match rt.workers.find? (fun wr =>
        match wr with
        | .worker rw => rw == w
        | .name s => s == w.name) with
      | some _ => ["Runtime '" ++ rt.name ++ "'"]
      | none => []
    | _, _ => []
  else []

/-- `_remove_component`: remove a component by ID with dependency checking. -/
def remove_component (b : PBuilder) (comp_id : String) : PBuilder × BuilderResult :=
  match dget? b.idMap comp_id with
  | none => (b, BuilderResult.notFound comp_id)
  | some (comp_type, component) =>
    let deps := check_dependencies b comp_id comp_type component
    if deps ≠ [] then
      (b, BuilderResult.hasDependencies comp_id comp_type deps)
    else
      let component_name := component.getName
      let inDict := fun {V : Type} (m : Dict String V) => match component_name with
        | some n => dmem m n
        | none => false
      let prog := b.program
      let prog :=
        if (["constant", "tensor_type", "symbol", "fifo_split",
              "fifo_join", "fifo_forward"].contains comp_type) && inDict prog.symbols then
          { prog with symbols := ddel prog.symbols (component_name.getD "") }
        else if comp_type == "tile" && inDict prog.tiles then
          { prog with tiles := ddel prog.tiles (component_name.getD "") }
        else if comp_type == "fifo" && inDict prog.fifos then
          { prog with fifos := ddel prog.fifos (component_name.getD "") }
        else if comp_type == "external_kernel" && inDict prog.external_kernels then
          { prog with external_kernels := ddel prog.external_kernels (component_name.getD "") }
        else if comp_type == "core_function" && inDict prog.core_functions then
          { prog with core_functions := ddel prog.core_functions (component_name.getD "") }
        else if comp_type == "worker" && inDict prog.workers then
          { prog with workers := ddel prog.workers (component_name.getD "") }
        else prog
      let idMap := ddel b.idMap comp_id
      let nameIndex := match component_name with
        | some n => if n ≠ "" then ddel b.nameIndex (comp_type, n) else b.nameIndex
        | none => b.nameIndex
      ({ b with program := prog, idMap := idMap, nameIndex := nameIndex },
        BuilderResult.ok comp_id component)

/-! ## Validation and build (`Program.validate` of
`plugins/core/aiecad_compiler/hlir/core.py`, `ProgramBuilder.build`) -/

/-- `Program.validate`: duplicate names across the six maps, worker
core-function resolution, FIFO producer/consumer tile membership. -/
def Program.validate (p : Program) : List String :=
  let names := dkeys p.symbols ++ dkeys p.tiles ++ dkeys p.fifos ++
    dkeys p.external_kernels ++ dkeys p.core_functions ++ dkeys p.workers
  let dupStep := fun (acc : List String × List String) (name : String) =>
    let errors := if name ∈ acc.2
      then acc.1 ++ ["Duplicate name '" ++ name ++ "' across namespaces"]
      else acc.1
    (errors, acc.2 ++ [name])
  let errors := (names.foldl dupStep ([], [])).1
  let errors := p.workers.foldl (fun errors wp =>
    match wp.2.core_fn with
    | .name s =>
      if ¬ dmem p.core_functions s then
        errors ++ ["Worker '" ++ wp.2.name ++ "' references unknown core function '" ++ s ++ "'"]
      else errors
    | .corefn _ => errors) errors
  let errors := p.fifos.foldl (fun errors fp =>
    let fifo := fp.2
    let errors := match fifo.producer with
      | some t =>
        if ¬ dmem p.tiles t.name then
          errors ++ ["FIFO '" ++ fifo.name ++ "' has unknown producer tile '" ++ t.name ++ "'"]
        else errors
      | none => errors
    fifo.consumers.foldl (fun errors c =>
      if ¬ dmem p.tiles c.name then
        errors ++ ["FIFO '" ++ fifo.name ++ "' has unknown consumer tile '" ++ c.name ++ "'"]
      else errors) errors) errors
  errors

/-- `ProgramBuilder.build`: raises `ValueError` (modelled as `Except.error`)
when validation reports errors, else returns the program. -/
def PBuilder.buildProgram (b : PBuilder) : Except String Program :=
  let errors := b.program.validate
  if errors ≠ [] then
    .error (String.intercalate "\n  - " ("Program validation failed:" :: errors))
  else .ok b.program

/-! ## A uniform view of the `add_*` family

`AddCall` enumerates one call to each `add_*` method with its arguments;
`applyAdd` dispatches to the function modelling that method.  This lets the
theorems quantify over every `add_*` builder operation at once. -/

/-- One `add_*` call with its arguments. -/
inductive AddCall
  | symbol (name : String) (value : Value) (type_hint : Option String) (is_constant : Bool)
  | tensor_type (name : String) (shape : List IntOrStr) (dtype : DataType) (layout : Option String)
  | tile (name : String) (kind : TileKind) (x y : Int) (metadata : Dict String String)
  | fifo (name : String) (obj_type : TypeRef) (depth : Int) (producer : Option TilePlace)
      (consumers : Option (List TilePlace)) (metadata : Dict String String)
  | fifo_split (name : String) (source : FifoRef) (num_outputs : Int) (output_type : TypeRef)
      (output_names : List String) (offsets : List IntOrStr) (placement : TilePlace)
      (metadata : Dict String String)
  | fifo_join (name : String) (dest : FifoRef) (num_inputs : Int) (input_type : TypeRef)
      (input_names : List String) (offsets : List IntOrStr) (placement : TilePlace)
      (metadata : Dict String String)
  | fifo_forward (name : String) (source : FifoRef) (metadata : Dict String String)
  | external_kernel (name kernel_name source_file : String) (arg_types : List TypeRef)
      (include_dirs : Option (List String)) (metadata : Dict String String)
  | core_function (name : String) (parameters : List String)
      (acquires : Option (List (String × Int × String)))
      (kernel_call : Option (String × List String))
      (releases : Option (List (String × Int))) (metadata : Dict String String)
  | worker (name : String) (core_fn : CoreFnRef) (fn_args : List WorkerArgIn)
      (placement : TilePlace) (metadata : Dict String String)
deriving DecidableEq, Repr

/-- The `name` argument of the call. -/
def AddCall.cname : AddCall → String
  | .symbol n _ _ _ => n
  | .tensor_type n _ _ _ => n
  | .tile n _ _ _ _ => n
  | .fifo n _ _ _ _ _ => n
  | .fifo_split n _ _ _ _ _ _ _ => n
  | .fifo_join n _ _ _ _ _ _ _ => n
  | .fifo_forward n _ _ => n
  | .external_kernel n _ _ _ _ _ => n
  | .core_function n _ _ _ _ _ => n
  | .worker n _ _ _ _ => n

/-- The namespace tag (`comp_type`) the call registers under. -/
def AddCall.ns : AddCall → String
  | .symbol _ _ _ ic => if ic then "constant" else "symbol"
  | .tensor_type _ _ _ _ => "tensor_type"
  | .tile _ _ _ _ _ => "tile"
  | .fifo _ _ _ _ _ _ => "fifo"
  | .fifo_split _ _ _ _ _ _ _ _ => "fifo_split"
  | .fifo_join _ _ _ _ _ _ _ _ => "fifo_join"
  | .fifo_forward _ _ _ => "fifo_forward"
  | .external_kernel _ _ _ _ _ _ => "external_kernel"
  | .core_function _ _ _ _ _ _ => "core_function"
  | .worker _ _ _ _ _ => "worker"

/-- Dispatch a call against a builder. -/
def applyAdd (b : PBuilder) (c : AddCall) (provided_id : Option String) :
    PBuilder × BuilderResult :=
  match c with
  | .symbol n v th ic => add_symbol b n v th ic provided_id
  | .tensor_type n sh dt lay => add_tensor_type b n sh dt lay provided_id
  | .tile n k x y md => add_tile b n k x y provided_id md
  | .fifo n ot d pr cs md => add_fifo b n ot d pr cs provided_id md
  | .fifo_split n src no ot ons offs pl md =>
    add_fifo_split b n src no ot ons offs pl provided_id md
  | .fifo_join n dst ni it ins offs pl md =>
    add_fifo_join b n dst ni it ins offs pl provided_id md
  | .fifo_forward n src md => add_fifo_forward b n src provided_id md
  | .external_kernel n kn sf ats ids md =>
    add_external_kernel b n kn sf ats ids provided_id md
  | .core_function n ps acq kc rel md =>
    add_core_function b n ps acq kc rel provided_id md
  | .worker n cf fa pl md => add_worker b n cf fa pl provided_id md

/-- The entity a call registers in the ID registry (reference resolution
reads only maps the call's own update path never deletes from, so the
resolution can be stated against `b` itself). -/
def registeredEntity (b : PBuilder) : AddCall → Entity
  | .symbol n v th ic => .sym { name := n, value := v, type_hint := th, is_constant := ic }
  | .tensor_type n sh dt lay =>
    .sym { name := n, value := .vTensor (make_tensor_type sh dt lay),
           type_hint := some "TensorType" }
  | .tile n k x y md => .tile { name := n, kind := k, x := x, y := y, metadata := md }
  | .fifo n ot d pr cs md =>
    .fifo { name := n, obj_type := ot, depth := d,
            producer := resolveProducer b.program.tiles pr,
            consumers := resolveConsumers b.program.tiles cs,
            metadata := md }
  | .fifo_split n src no ot ons offs pl md =>
    .sym { name := n,
           value := .vSplit
             { name := n, source := resolveFifoKeep b.program.fifos src,
               num_outputs := no, output_type := ot, output_names := ons,
               offsets := offs, placement := resolveTileKeep b.program.tiles pl,
               metadata := md },
           type_hint := some "SplitOperation" }
  | .fifo_join n dst ni it ins offs pl md =>
    .sym { name := n,
           value := .vJoin
             { name := n, dest := resolveFifoKeep b.program.fifos dst,
               num_inputs := ni, input_type := it, input_names := ins,
               offsets := offs, placement := resolveTileKeep b.program.tiles pl,
               metadata := md },
           type_hint := some "JoinOperation" }
  | .fifo_forward n src md =>
    .sym { name := n,
           value := .vForward
             { name := n, source := resolveFifoKeep b.program.fifos src, metadata := md },
           type_hint := some "ForwardOperation" }
  | .external_kernel n kn sf ats ids md =>
    .kernel { name := n, kernel_name := kn, source_file := sf, arg_types := ats,
              include_dirs := ids.getD [], metadata := md }
  | .core_function n ps acq kc rel md =>
    .corefn { name := n, parameters := ps,
              acquires := (acq.getD []).map (fun t => Acquire.mk t.1 t.2.1 t.2.2),
              kernel_call := kc.map (fun t => KernelCall.mk t.1 t.2),
              releases := (rel.getD []).map (fun t => Release.mk t.1 t.2),
              metadata := md }
  | .worker n cf fa pl md =>
    .worker { name := n, core_fn := resolveCoreFnKeep b.program.core_functions cf,
              fn_args := fa.map (processWorkerArg b.program.fifos),
              placement := resolveTileKeep b.program.tiles pl, metadata := md }

/-! ## XML expander (`XMLGenerator.py`)

`XElem` models an lxml element: tag, attributes (in creation order), text
and children.  `etree.SubElement` calls become child-list construction.
`str.format` on the naming templates becomes explicit concatenation. -/

/-- Python `str.strip()` (drop leading/trailing whitespace). -/
def pyStrip (s : String) : String :=
  String.mk (((s.toList.dropWhile Char.isWhitespace).reverse.dropWhile
    Char.isWhitespace).reverse)

/-- Python `str.split(sep)` for a single-character separator. -/
def pySplitChar (sep : Char) (s : String) : List String :=
  (pySplitCharAux sep s.toList []).map String.mk
where
  pySplitCharAux (sep : Char) : List Char → List Char → List (List Char)
    | [], acc => [acc.reverse]
    | c :: rest, acc =>
      if c = sep then acc.reverse :: pySplitCharAux sep rest []
      else pySplitCharAux sep rest (c :: acc)

/-- Python `sep in s` for a single character. -/
def pyContainsChar (sep : Char) (s : String) : Bool :=
  s.toList.any (fun c => c = sep)

/-- The numeric value of a digit string. -/
def pyDigitsToNat (cs : List Char) : Nat :=
  cs.foldl (fun n c => n * 10 + (c.toNat - 48)) 0

/-- Parse a nonempty all-digit string. -/
def pyNat? (s : String) : Option Nat :=
  if s.toList ≠ [] ∧ s.toList.all Char.isDigit then some (pyDigitsToNat s.toList)
  else none

/-- Python `str.lower()` (ASCII). -/
def pyLower (s : String) : String :=
  String.mk (s.toList.map Char.toLower)

/-- An lxml XML element. -/
inductive XElem
  | mk (tag : String) (attrs : List (String × String)) (text : Option String)
      (children : List XElem)

def XElem.tag : XElem → String
  | .mk t _ _ _ => t

def XElem.attrs : XElem → List (String × String)
  | .mk _ a _ _ => a

def XElem.text : XElem → Option String
  | .mk _ _ t _ => t

def XElem.children : XElem → List XElem
  | .mk _ _ _ c => c

/-- lxml `elem.set(key, value)`. -/
def XElem.setAttr : XElem → String → String → XElem
  | .mk t a tx c, k, v => .mk t (dinsert a k v) tx c

/-- Python `int(s)` (sign + digits; raises otherwise, modelled as `none`). -/
def pyInt? (s : String) : Option Int :=
  match s.toList with
  | '-' :: rest => (pyNat? (String.mk rest)).map (fun n => -(n : Int))
  | '+' :: rest => (pyNat? (String.mk rest)).map (fun n => (n : Int))
  | _ => (pyNat? s).map (fun n => (n : Int))

/-- Python `str.isdigit()` (ASCII digits; nonempty). -/
def pyIsDigit (s : String) : Bool :=
  s ≠ "" && s.toList.all Char.isDigit

/-- Python `range(n)` for a possibly negative `int` bound. -/
def pyRange (n : Int) : List Int :=
  (List.range n.toNat).map Int.ofNat

/-- `NamingConventions.OBJECTFIFO_TEMPLATES[context].format(...)`, with
`"{data}_col{column}"` as the `.get` default template. -/
def fifoTemplateFormat (context data workers column stage worker : String) : String :=
  if context == "L3_L2" then "SHIM_L3_L2_" ++ data ++ workers ++ "_col" ++ column
  else if context == "L2_L3" then "SHIM_L2_L3_" ++ data ++ workers ++ "_col" ++ column
  else if context == "L2_L1" then "MEM_L2_L1_" ++ data ++ workers ++ "_col" ++ column
  else if context == "L1_L2" then "MEM_L1_L2_" ++ data ++ workers ++ "_col" ++ column
  else if context == "L1_L1" then "L1_L1_" ++ stage ++ "_" ++ worker
  else data ++ "_col" ++ column

/-- `NamingConventions.generate_objectfifo_name`. -/
def generate_objectfifo_name (attrs : Dict String String)
    (num_workers : Int := 2) : String :=
  let context := (dget? attrs "context").getD ""
  let data := (dget? attrs "data").getD ""
  let column := (dget? attrs "column").getD ""
  let worker := (dget? attrs "worker").getD ""
  let stage := (dget? attrs "stage").getD ""
  if (["L3_L2", "L2_L3", "L2_L1", "L1_L2"].contains context) && pyIsDigit column then
    let col_num : Int := ((pyNat? column).getD 0 : Nat)
    let worker_idx := col_num * num_workers + 1
    let worker_suffix :=
      String.join ((pyRange num_workers).map (fun i => data ++ toString (worker_idx + i)))
    fifoTemplateFormat context "" worker_suffix column stage worker
  else if context == "L1_L1" then
    fifoTemplateFormat context data "" column stage worker
  else
    fifoTemplateFormat context data "" column stage worker

/-- `NamingConventions.generate_split_output_names`. -/
def generate_split_output_names (attrs : Dict String String)
    (num_outputs : Int) : List String :=
  let data := (dget? attrs "data").getD ""
  let column := (dget? attrs "column").getD ""
  if !pyIsDigit column then
    (pyRange num_outputs).map (fun i => "split_output_" ++ toString i)
  else
    let col_num : Int := ((pyNat? column).getD 0 : Nat)
    let base_idx := col_num * num_outputs + 1
    (pyRange num_outputs).map (fun i =>
      "MEM_L2_L1_" ++ data ++ toString (base_idx + i) ++ "_col" ++ column)

/-- `NamingConventions.generate_join_input_names`. -/
def generate_join_input_names (attrs : Dict String String)
    (num_inputs : Int) : List String :=
  let data := (dget? attrs "data").getD ""
  let column := (dget? attrs "column").getD ""
  if !pyIsDigit column then
    (pyRange num_inputs).map (fun i => "join_input_" ++ toString i)
  else
    let col_num : Int := ((pyNat? column).getD 0 : Nat)
    let base_idx := col_num * num_inputs + 1
    (pyRange num_inputs).map (fun i =>
      "MEM_L1_L2_" ++ data ++ toString (base_idx + i) ++ "_col" ++ column)

/-- `ExpressionExpander.get_tensor_ref`. -/
def get_tensor_ref (tensor_refs : Dict String String) (data_key : String) : String :=
  (dget? tensor_refs data_key).getD (pyLower data_key)

/-- `ExpressionExpander.expand_shape_expression`.  `symbols` is the
constant table (name to raw value), `tensor_ref` the optional tensor
parameter reference. -/
def expand_shape_expression (symbols : Dict String String) (expr : String)
    (tensor_ref : Option String := none) : String :=
  match dget? symbols expr with
  | some value =>
    -- bare constant reference; `if tensor_ref:` is Python truthiness
    match pyTruthy tensor_ref with
    | some tr => "(" ++ tr ++ ".numel())"
    | none => value
  | none =>
    if pyContainsChar '/' expr then
      match pySplitChar '/' expr with
      | [p0, p1] =>
        let numerator := pyStrip p0
        let denominator := pyStrip p1
        let numerator_expanded :=
          match dget? symbols numerator with
          | some v =>
            match pyTruthy tensor_ref with
            | some tr => tr ++ ".numel()"
            | none => v
          | none => numerator
        "((" ++ numerator_expanded ++ ") // " ++ denominator ++ ")"
      | _ => expr
    else expr

/-- `XMLTransformer._extract_type_divisors`.  Input: one entry per
`TypeAbstraction` with its raw `<shape>` text (present and nonempty
after the `is not None` / truthiness guards, else `none`). -/
def extract_type_divisors (decls : List (String × Option String)) : Dict String Int :=
  decls.foldl (fun td d =>
    match d.2 with
    | some txt =>
      if txt ≠ "" then
        let shape := pyStrip txt
        if pyContainsChar '/' shape then
          match pySplitChar '/' shape with
          | [_, p1] =>
            match pyInt? (pyStrip p1) with
            | some divisor => dinsert td d.1 divisor
            | none => dinsert td d.1 1
          | _ => td
        else dinsert td d.1 1
      else td
    | none => td) []

/-- The regex prefix match `Tile\((\d+),\s*(\d+)\)` of
`MethodChainBuilder._add_placement_kwarg`. -/
def pyParseTile (s : String) : Option (String × String) :=
  match s.toList with
  | 'T' :: 'i' :: 'l' :: 'e' :: '(' :: rest =>
    let x := rest.takeWhile Char.isDigit
    if x = [] then none
    else
      match rest.drop x.length with
      | ',' :: r2 =>
        let sp := r2.takeWhile Char.isWhitespace
        let r3 := r2.drop sp.length
        let y := r3.takeWhile Char.isDigit
        if y = [] then none
        else
          match r3.drop y.length with
          | ')' :: _ => some (String.mk x, String.mk y)
          | _ => none
      | _ => none
  | _ => none

/-- `MethodChainBuilder._add_placement_kwarg`. -/
def placementKwarg (placement : String) : XElem :=
  let args := match pyParseTile placement with
    | some (x, y) =>
      [XElem.mk "arg" [] none [XElem.mk "const" [] (some x) []],
       XElem.mk "arg" [] none [XElem.mk "const" [] (some y) []]]
    | none => []
  XElem.mk "kwarg" [("name", "placement")] none
    [XElem.mk "constructor" [("ref", "Tile")] none args]

/-- One offset expression of the split/join chains:
`(tensor_ref.numel() // total_divisor) * i`. -/
def offsetExprXml (tensor_ref : String) (total_divisor i : Int) : XElem :=
  XElem.mk "binary_op" [("op", "*")] none
    [XElem.mk "binary_op" [("op", "//")] none
      [XElem.mk "method" [("ref", tensor_ref), ("name", "numel")] none [],
       XElem.mk "const" [] (some (toString total_divisor)) []],
     XElem.mk "const" [] (some (toString i)) []]

/-- `MethodChainBuilder.build_split_chain`. -/
def build_split_chain (source_name : String) (num_outputs : Int)
    (output_type : String) (output_names : List String) (placement : String)
    (attrs : Dict String String) (tensor_refs : Dict String String)
    (source_type_divisor : Int := 1) : XElem :=
  let data := (dget? attrs "data").getD ""
  let tensor_ref := get_tensor_ref tensor_refs data
  let total_divisor := source_type_divisor * num_outputs
  XElem.mk "ObjectFifo" [] none
    [XElem.mk "source" [] none
      [XElem.mk "method_chain" [] none
        [XElem.mk "base" [] none [XElem.mk "var" [("ref", source_name)] none []],
         XElem.mk "call" [] none [XElem.mk "method" [("name", "cons")] none []],
         XElem.mk "call" [] none
           [XElem.mk "method" [("name", "split")] none
             [XElem.mk "kwarg" [("name", "obj_types")] none
               [XElem.mk "list" [] none
                 ((pyRange num_outputs).map (fun _ =>
                   XElem.mk "type_ref" [] (some output_type) []))],
              XElem.mk "kwarg" [("name", "offsets")] none
               [XElem.mk "list" [] none
                 ((pyRange num_outputs).map (offsetExprXml tensor_ref total_divisor))],
              XElem.mk "kwarg" [("name", "names")] none
               [XElem.mk "list" [] none
                 (output_names.map (fun nm => XElem.mk "string" [] (some nm) []))],
              placementKwarg placement]]]]]

/-- `MethodChainBuilder.build_join_chain` (note the kwarg order:
`obj_types`, `names`, `placement`, then `offsets`). -/
def build_join_chain (dest_name : String) (num_inputs : Int)
    (input_type : String) (input_names : List String) (placement : String)
    (attrs : Dict String String) (tensor_refs : Dict String String)
    (dest_type_divisor : Int := 1) : XElem :=
  let data := (dget? attrs "data").getD ""
  let tensor_ref := get_tensor_ref tensor_refs data
  let total_divisor := dest_type_divisor * num_inputs
  XElem.mk "ObjectFifo" [] none
    [XElem.mk "source" [] none
      [XElem.mk "method_chain" [] none
        [XElem.mk "base" [] none [XElem.mk "var" [("ref", dest_name)] none []],
         XElem.mk "call" [] none [XElem.mk "method" [("name", "prod")] none []],
         XElem.mk "call" [] none
           [XElem.mk "method" [("name", "join")] none
             [XElem.mk "kwarg" [("name", "obj_types")] none
               [XElem.mk "list" [] none
                 ((pyRange num_inputs).map (fun _ =>
                   XElem.mk "type_ref" [] (some input_type) []))],
              XElem.mk "kwarg" [("name", "names")] none
               [XElem.mk "list" [] none
                 (input_names.map (fun nm => XElem.mk "string" [] (some nm) []))],
              placementKwarg placement,
              XElem.mk "kwarg" [("name", "offsets")] none
               [XElem.mk "list" [] none
                 ((pyRange num_inputs).map (offsetExprXml tensor_ref total_divisor))]]]]]]

/-- `XMLTransformer._map_to_specific_type`. -/
def map_to_specific_type (generic_type data _context : String) : String :=
  if data = "" then generic_type
  else
    let data_lower := pyLower data
    if generic_type == "data_ty" then "data_" ++ data_lower ++ "_ty"
    else if generic_type == "chunk_ty" then "chunk_" ++ data_lower
    else if generic_type == "worker_chunk_ty" then "chunk_" ++ data_lower ++ "_worker"
    else generic_type

/-- The transformer state consulted and updated by the split/join
transforms (`XMLTransformer.__init__` derived tables). -/
structure TState where
  symbols : Dict String String := []
  tensor_refs : Dict String String := []
  objectfifo_names : Dict String String := []
  objectfifo_types : Dict String String := []
  type_divisors : Dict String Int := []
  split_outputs : Dict String (List String) := []
  join_inputs : Dict String (List String) := []

/-- The fields of an `<ObjectFifoSplit>` element as read by
`_transform_split` (`name`/attrs from the attributes, the rest from the
stripped text of the subelements). -/
structure SplitElem where
  name : String
  source : String
  num_outputs : Int
  output_type : String
  placement : String
  attrs : Dict String String := []

/-- The fields of an `<ObjectFifoJoin>` element. -/
structure JoinElem where
  name : String
  dest : String
  num_inputs : Int
  input_type : String
  placement : String
  attrs : Dict String String := []

/-- `XMLTransformer._transform_split` (the produced `<ObjectFifo>` element
and the state updates). -/
def transform_split (st : TState) (e : SplitElem) : XElem × TState :=
  let expanded_source := (dget? st.objectfifo_names e.source).getD e.source
  let source_fifo_type := (dget? st.objectfifo_types e.source).getD "data_ty"
  let source_type_divisor := (dget? st.type_divisors source_fifo_type).getD 1
  let specific_output_type := map_to_specific_type e.output_type
    ((dget? e.attrs "data").getD "") ((dget? e.attrs "context").getD "")
  let output_names := generate_split_output_names e.attrs e.num_outputs
  let st1 := { st with split_outputs := dinsert st.split_outputs e.name output_names }
  let split_name := generate_objectfifo_name e.attrs e.num_outputs
  let obj_fifo := build_split_chain expanded_source e.num_outputs
    specific_output_type output_names e.placement e.attrs st1.tensor_refs
    source_type_divisor
  let obj_fifo := obj_fifo.setAttr "name" split_name
  (obj_fifo,
   { st1 with objectfifo_names := dinsert st1.objectfifo_names e.name split_name })

/-- `XMLTransformer._transform_join`. -/
def transform_join (st : TState) (e : JoinElem) : XElem × TState :=
  let expanded_dest := (dget? st.objectfifo_names e.dest).getD e.dest
  let dest_fifo_type := (dget? st.objectfifo_types e.dest).getD "data_ty"
  let dest_type_divisor := (dget? st.type_divisors dest_fifo_type).getD 1
  let specific_input_type := map_to_specific_type e.input_type
    ((dget? e.attrs "data").getD "") ((dget? e.attrs "context").getD "")
  let input_names := generate_join_input_names e.attrs e.num_inputs
  let st1 := { st with join_inputs := dinsert st.join_inputs e.name input_names }
  let join_name := generate_objectfifo_name e.attrs e.num_inputs
  let obj_fifo := build_join_chain expanded_dest e.num_inputs
    specific_input_type input_names e.placement e.attrs st1.tensor_refs
    dest_type_divisor
  let obj_fifo := obj_fifo.setAttr "name" join_name
  (obj_fifo,
   { st1 with objectfifo_names := dinsert st1.objectfifo_names e.name join_name })

/-! Extractors used to state the offsets property of the emitted chains. -/

def XElem.findChild (x : XElem) (tag : String) : Option XElem :=
  x.children.find? (fun c => c.tag == tag)

/-- The children of the `<list>` under the named kwarg of the named
method call of the element's `source/method_chain`. -/
def chainMethodKwargList (x : XElem) (methodName kwargName : String) : List XElem :=
  match x.findChild "source" with
  | none => []
  | some src =>
    match src.findChild "method_chain" with
    | none => []
    | some mc =>
      let methods := (mc.children.filter (fun c => c.tag == "call")).filterMap
        (fun c => c.children.find? (fun m =>
          m.tag == "method" && (dget? m.attrs "name" == some methodName)))
      match methods.head? with
      | none => []
      | some m =>
        match m.children.find? (fun k =>
            k.tag == "kwarg" && (dget? k.attrs "name" == some kwargName)) with
        | none => []
        | some kw =>
          match kw.findChild "list" with
          | none => []
          | some l => l.children

/-! ## Graph builder (`GraphDriver.py`)

The scope stack is a list of frames, innermost scope last
(`self._scope_stack[-1]` is the top frame).  The graph is a node table
(id to label and kind; the optional extra attributes are metadata not
read by any verified property) plus an edge table; `networkx.DiGraph`
stores at most one edge per ordered node pair, and `add_edge` on an
existing pair overwrites its `type` attribute. -/

/-- One scope frame: name to node id. -/
abbrev Frame := Dict String String

/-- `GraphBuilder._declare_symbol`.  A `None` name is a no-op. -/
def declare_symbol (stack : List Frame) (name : Option String) (nid : String) :
    List Frame :=
  match name with
  | none => stack
  | some name =>
    -- check if the symbol exists in outer scopes (shadowing)
    if (stack.dropLast).any (fun scope => dmem scope name) then
      stack.dropLast ++ [dinsert (stack.getLastD []) name nid]
    -- prevent duplicate in current scope
    else if dmem (stack.getLastD []) name then stack
    -- register new symbol
    else stack.dropLast ++ [dinsert (stack.getLastD []) name nid]

/-- Search frames innermost-first (`reversed(self._scope_stack)` of a
stack whose last element is the top frame). -/
def lookup_frames (name : String) : List Frame → Option String
  | [] => none
  | f :: rest =>
    match dget? f name with
    | some v => some v
    | none => lookup_frames name rest

/-- `GraphBuilder._lookup`: `NameError` is modelled as `Except.error`. -/
def scope_lookup (stack : List Frame) (name : String) : Except String String :=
  if name = "" then .error "Empty name in lookup"
  else
    match lookup_frames name stack.reverse with
    | some v => .ok v
    | none => .error ("Undefined symbol: " ++ name)

/-- The builder graph: node table, edge table, id counter.  Extra node
attributes (`**attrs` of `_add_node`) are metadata not consulted by the
verified properties and are omitted. -/
structure GGraph where
  nodes : Dict String (String × String) := []   -- nid, (label, kind)
  edges : Dict (String × String) String := []   -- (src, dst), edge type
  counter : Nat := 0
deriving DecidableEq, Repr

/-- `GraphBuilder._new_id` (the argument is the id prefix). -/
def GGraph.newId (g : GGraph) (pfx : String) : GGraph × String :=
  let c := g.counter + 1
  ({ g with counter := c }, pfx ++ "_" ++ toString c)

/-- `GraphBuilder._add_node` (the node id is prefixed with the kind). -/
def GGraph.addNode (g : GGraph) (label kind : String) : GGraph × String :=
  let r := g.newId kind
  ({ r.1 with nodes := dinsert r.1.nodes r.2 (label, kind) }, r.2)

/-- `GraphBuilder._link`: `if src and dst and edge_type` (empty strings
are falsy) then `add_edge` (which overwrites the `type` of an existing
edge on the same ordered pair). -/
def GGraph.link (g : GGraph) (src dst edge_type : String) : GGraph :=
  if src ≠ "" ∧ dst ≠ "" ∧ edge_type ≠ "" then
    { g with edges := dinsert g.edges (src, dst) edge_type }
  else g

/-- The kind of a node. -/
def GGraph.kindOf (g : GGraph) (nid : String) : Option String :=
  (dget? g.nodes nid).map Prod.snd

/-- The `var` case of `GraphBuilder._walk_expression` (lines 903-912):
derive the name from the stripped text, override it with a truthy `ref`
attribute, and if nonempty create a `VarRef` node unconditionally (no
scope lookup, no error); an empty name falls through the branch. -/
def walk_var (g : GGraph) (text : Option String) (ref : Option String) :
    GGraph × Option String :=
  let name := match text with
    | some t => pyStrip t
    | none => ""
  let name := match ref with
    | some r => if r ≠ "" then r else name
    | none => name
  if name ≠ "" then
    let r := g.addNode name "VarRef"
    (r.1, some r.2)
  else (g, none)

/-! ### The mutation trace of a build

A graph produced by `GraphBuilder.build()` is the result of a sequence of
the three mutation primitives below.  This enumeration is exhaustive for
`GraphDriver.py` and `GraphExtender.py`: every mutation of `self.graph`
is `_add_node` (`addNode`, with a fresh counter-generated id), `_link`
(`link`; no call site in either file passes `"then"` or `"else"` as the
edge type), or one of the two relabel loops of `_func_if`
(`relabelBranch`: the targets are the new out-edges of the `If` node `i`
created a few lines above, and an edge is rewritten only when its current
type is `"contains"`). -/

/-- One graph mutation. -/
inductive GOp
  | addNode (nid label kind : String)
  | link (src dst edge_type : String)
  | relabelBranch (i : String) (targets : List String) (lbl : String)
deriving DecidableEq, Repr

/-- Apply one mutation. -/
def applyGOp (g : GGraph) : GOp → GGraph
  | .addNode nid label kind => { g with nodes := dinsert g.nodes nid (label, kind) }
  | .link src dst t =>
    if src ≠ "" ∧ dst ≠ "" ∧ t ≠ "" then
      { g with edges := dinsert g.edges (src, dst) t }
    else g
  | .relabelBranch i targets lbl =>
    { g with edges := targets.foldl (fun es tgt =>
        if dget? es (i, tgt) = some "contains" then dinsert es (i, tgt) lbl
        else es) g.edges }

/-- Run a trace. -/
def runGOps (g : GGraph) (ops : List GOp) : GGraph :=
  ops.foldl applyGOp g

/-- Side conditions every mutation of an actual build satisfies:
node ids are fresh (counter-generated), `_link` never receives `then` or
`else`, and a relabel is performed by `_func_if` on the freshly created
`If` node with label `then` or `else`. -/
def WfTrace : GGraph → List GOp → Prop
  | _, [] => True
  | g, op :: rest =>
    (match op with
     | .addNode nid _ _ => dmem g.nodes nid = false
     | .link _ _ t => t ≠ "then" ∧ t ≠ "else"
     | .relabelBranch i _ lbl =>
       g.kindOf i = some "If" ∧ (lbl = "then" ∨ lbl = "else")) ∧
    WfTrace (applyGOp g op) rest

/-! ## Helper lemmas for the builder theorems -/

@[simp] theorem pyTruthy_none : pyTruthy none = none := rfl

theorem pyTruthy_some (s : String) (h : s ≠ "") : pyTruthy (some s) = some s := by
  unfold pyTruthy
  split
  · rename_i heq
    cases heq
    exact absurd rfl h
  · rfl

theorem dget?_isSome_of_dmem [DecidableEq K] (m : Dict K V) (k : K)
    (h : dmem m k = true) : ∃ v, dget? m k = some v := by
  match hv : dget? m k with
  | some v => exact ⟨v, rfl⟩
  | none =>
    induction m with
    | nil => cases h
    | cons p t ih =>
      rw [dget?_cons] at hv
      simp only [dmem_cons, Bool.or_eq_true, decide_eq_true_eq] at h
      by_cases hp : p.1 = k
      · rw [if_pos hp] at hv; cases hv
      · rw [if_neg hp] at hv
        rcases h with h | h
        · exact absurd h hp
        · exact ih h hv

/-- The update path of `_register_component`: a truthy provided id that is
present in the registry keeps the id, rebinds it to the new component and
points the name index at it. -/
theorem register_component_provided_eq (b : PBuilder) (ct n : String)
    (ent : Entity) (pid : String) (ot : String) (oc : Entity)
    (hpid : pid ≠ "") (hget : dget? b.idMap pid = some (ot, oc)) :
    register_component b ct n ent (some pid) =
    ({ b with idMap := dinsert b.idMap pid (ct, ent),
              nameIndex := dinsert
                (if ot = ct then
                  match oc.getName with
                  | some old_name =>
                    if old_name ≠ "" ∧ old_name ≠ n then
                      ddel b.nameIndex (ct, old_name)
                    else b.nameIndex
                  | none => b.nameIndex
                 else b.nameIndex) (ct, n) pid }, pid) := by
  unfold register_component
  rw [pyTruthy_some pid hpid]
  dsimp only
  rw [hget]

/-- The name-index adjustment in the update path never disturbs the count
bound of the key being written. -/
theorem register_nameIndex_count_le (b : PBuilder) (ct n : String)
    (ot : String) (oc : Entity)
    (hcount : dcount b.nameIndex (ct, n) ≤ 1) :
    dcount
      (if ot = ct then
        match oc.getName with
        | some old_name =>
          if old_name ≠ "" ∧ old_name ≠ n then
            ddel b.nameIndex (ct, old_name)
          else b.nameIndex
        | none => b.nameIndex
       else b.nameIndex) (ct, n) ≤ 1 := by
  split
  · match oc.getName with
    | some old_name =>
      simp only
      split
      · rename_i hcond
        rw [dcount_ddel _ _ _ (by
          intro he
          exact hcond.2 (by cases he; rfl))]
        exact hcount
      · exact hcount
    | none => exact hcount
  · exact hcount

/-! ## C10 -/

/-- C10: every `add_*` call that fails with a duplicate-name error (no
provided id) returns `success=False`, `error_code=DUPLICATE_NAME`,
`id=None`, `component=None`; the existing id appears only inside the
`error_message` string; the builder state is unchanged. -/
theorem add_duplicate_result_shape (b : PBuilder) (c : AddCall)
    (h : ((applyAdd b c none).2).error_code = some ErrorCode.DUPLICATE_NAME) :
    ((applyAdd b c none).2).success = false ∧
    ((applyAdd b c none).2).id = none ∧
    ((applyAdd b c none).2).component = none ∧
    ((applyAdd b c none).2).error_message =
      some (c.ns ++ " '" ++ c.cname ++ "' already exists with ID " ++
        ((dget? b.nameIndex (c.ns, c.cname)).getD "")) ∧
    (applyAdd b c none).1 = b := by
  cases c <;>
    simp only [applyAdd, add_symbol, add_tensor_type, add_tile, add_fifo,
      add_fifo_split, add_fifo_join, add_fifo_forward, add_external_kernel,
      add_core_function, add_worker, add_finish, AddCall.ns, AddCall.cname, pyTruthy_none,
      BuilderResult.duplicate, BuilderResult.err, BuilderResult.ok] at h ⊢ <;>
    split at h <;>
    simp_all

/-- C10 witness: a concrete duplicate `add_tile` call. -/
def c10Builder : PBuilder := (add_tile (PBuilder.init "p") "t0" .shim 0 0).1

theorem add_duplicate_result_shape_witness :
    ((applyAdd c10Builder (.tile "t0" .compute 1 1 []) none).2).error_code =
      some ErrorCode.DUPLICATE_NAME ∧
    ((applyAdd c10Builder (.tile "t0" .compute 1 1 []) none).2).success = false ∧
    ((applyAdd c10Builder (.tile "t0" .compute 1 1 []) none).2).id = none ∧
    ((applyAdd c10Builder (.tile "t0" .compute 1 1 []) none).2).component = none ∧
    ((applyAdd c10Builder (.tile "t0" .compute 1 1 []) none).2).error_message =
      some ((AddCall.tile "t0" .compute 1 1 []).ns ++ " '" ++
        (AddCall.tile "t0" .compute 1 1 []).cname ++ "' already exists with ID " ++
        ((dget? c10Builder.nameIndex ((AddCall.tile "t0" .compute 1 1 []).ns,
          (AddCall.tile "t0" .compute 1 1 []).cname)).getD "")) ∧
    (applyAdd c10Builder (.tile "t0" .compute 1 1 []) none).1 = c10Builder := by
  have h := add_duplicate_result_shape c10Builder (.tile "t0" .compute 1 1 [])
    (by decide)
  exact ⟨by decide, h.1, h.2.1, h.2.2.1, h.2.2.2.1, h.2.2.2.2⟩

/-! ## C2 -/

/-- C2: whenever the target of `remove(component_id)` has dependents, the
call returns an unsuccessful result with code `DEPENDENCY_EXISTS` carrying
exactly the dependency list, and it leaves the builder (program and
registry) unchanged; for a `tensor_type` target every FIFO whose
`obj_type` names the type contributes its `"FIFO '<name>'"` entry. -/
theorem remove_with_dependents_blocked (b : PBuilder) (cid ct : String)
    (comp : Entity) (hget : dget? b.idMap cid = some (ct, comp))
    (hdeps : check_dependencies b cid ct comp ≠ []) :
    remove_component b cid =
      (b, BuilderResult.hasDependencies cid ct (check_dependencies b cid ct comp)) ∧
    ((remove_component b cid).2).success = false ∧
    ((remove_component b cid).2).error_code = some ErrorCode.DEPENDENCY_EXISTS ∧
    ((remove_component b cid).2).dependencies =
      some (check_dependencies b cid ct comp) ∧
    (remove_component b cid).1 = b ∧
    (ct = "tensor_type" →
      ∀ fname fifo, (fname, fifo) ∈ b.program.fifos →
        fifo.obj_type = .name ((comp.getName).getD "?") →
        comp.getName ≠ none →
        ("FIFO '" ++ fname ++ "'") ∈ check_dependencies b cid ct comp) := by
  have hrem : remove_component b cid =
      (b, BuilderResult.hasDependencies cid ct (check_dependencies b cid ct comp)) := by
    unfold remove_component
    rw [hget]
    simp only [hdeps, ite_true, ne_eq, not_false_iff]
  refine ⟨hrem, ?_, ?_, ?_, ?_, ?_⟩
  · rw [hrem]; rfl
  · rw [hrem]; rfl
  · rw [hrem]; rfl
  · rw [hrem]
  · intro hct fname fifo hmem hobj hname
    subst hct
    match hgn : comp.getName with
    | none => exact absurd hgn hname
    | some n =>
      rw [hgn] at hobj
      simp only [Option.getD] at hobj
      unfold check_dependencies
      simp only [ite_true, if_pos rfl]
      rw [hgn]
      -- the fold appends one entry per matching FIFO, in map order
      have hgen : ∀ (l : List (String × ObjectFifo)) (acc : List String),
          (fname, fifo) ∈ l →
          ("FIFO '" ++ fname ++ "'") ∈ l.foldl (fun deps p =>
            match p.2.obj_type with
            | .name s => if some n = some s then deps ++ ["FIFO '" ++ p.1 ++ "'"] else deps
            | _ => deps) acc ∨
          ("FIFO '" ++ fname ++ "'") ∈ acc → True := fun _ _ _ _ => trivial
      clear hgen
      have main : ∀ (l : List (String × ObjectFifo)) (acc : List String),
          ((fname, fifo) ∈ l ∨ ("FIFO '" ++ fname ++ "'") ∈ acc) →
          ("FIFO '" ++ fname ++ "'") ∈ l.foldl (fun deps p =>
            match p.2.obj_type with
            | .name s => if some n = some s then deps ++ ["FIFO '" ++ p.1 ++ "'"] else deps
            | _ => deps) acc := by
        intro l
        induction l with
        | nil =>
          intro acc h
          rcases h with h | h
          · cases h
          · exact h
        | cons p t ih =>
          intro acc h
          simp only [List.foldl_cons]
          rcases h with h | h
          · rcases List.mem_cons.mp h with h | h
            · cases h
              apply ih
              right
              rw [hobj]
              simp
            · exact ih _ (Or.inl h)
          · apply ih
            right
            match p.2.obj_type with
            | .name s =>
              by_cases hs : some n = some s <;> simp [hs, h]
            | .scalar d => exact h
            | .tensor tt => exact h
      exact main _ _ (Or.inl hmem)

/-- The concrete C2 scenario of the specification: `chunk_ty` used by
FIFO `f0`. -/
def c2Builder : PBuilder :=
  let s1 := add_tensor_type (PBuilder.init "p") "chunk_ty" [.num 1024] .int32
  (add_fifo s1.1 "f0" (.name "chunk_ty") 2).1

/-- The registered symbol for `chunk_ty` in the C2 scenario. -/
def c2Symbol : Symbol :=
  { name := "chunk_ty", value := .vTensor { shape := [.num 1024], dtype := .int32 },
    type_hint := some "TensorType" }

theorem remove_with_dependents_blocked_witness :
    dget? c2Builder.idMap "uuid-0" = some ("tensor_type", .sym c2Symbol) ∧
    check_dependencies c2Builder "uuid-0" "tensor_type" (.sym c2Symbol) = ["FIFO 'f0'"] ∧
    remove_component c2Builder "uuid-0" =
      (c2Builder, BuilderResult.hasDependencies "uuid-0" "tensor_type" ["FIFO 'f0'"]) ∧
    dmem c2Builder.program.symbols "chunk_ty" = true := by
  have h := remove_with_dependents_blocked c2Builder "uuid-0" "tensor_type"
    (.sym c2Symbol) (by decide) (by decide)
  refine ⟨by decide, by decide, ?_, by decide⟩
  have h1 := h.1
  rw [h1]
  have hdeps : check_dependencies c2Builder "uuid-0" "tensor_type" (.sym c2Symbol) =
      ["FIFO 'f0'"] := by decide
  rw [hdeps]

/-! ## C3 -/

theorem dkeys_dinsert_mem [DecidableEq K] (m : Dict K V) (k : K) (v : V)
    (h : dmem m k = true) : dkeys (dinsert m k v) = dkeys m := by
  induction m with
  | nil => cases h
  | cons p t ih =>
    simp only [dmem_cons, Bool.or_eq_true, decide_eq_true_eq] at h
    simp only [dinsert]
    by_cases hp : p.1 = k
    · simp [dkeys, hp]
    · rcases h with h | h
      · exact absurd h hp
      · simp only [hp, ite_false, dkeys, List.map_cons]
        exact congrArg (List.cons p.1) (ih h)

/-- A builder exercising the claim: `add_fifo_split` called with
`num_outputs = 2` but one output name and no offsets. -/
def c3Builder : PBuilder :=
  let s1 := add_fifo (PBuilder.init "p") "src" (.name "t") 2
  (add_fifo_split s1.1 "s" (.name "src") 2 (.name "t") ["a"] [] (.name "x")).1

/-- The split operation stored by `c3Builder`. -/
def c3Split : SplitOperation :=
  { name := "s",
    source := .ofifo { name := "src", obj_type := .name "t", depth := 2 },
    num_outputs := 2, output_type := .name "t", output_names := ["a"],
    offsets := [], placement := .name "x" }

/-- C3 counterexample: a builder holding a split with
`len(output_names) = 1 ≠ num_outputs = 2 ≠ len(offsets) = 0` builds
successfully — `build()` does not fail, and the returned program stores
the mis-sized split, contradicting the claim. -/
theorem build_no_split_size_check :
    c3Builder.buildProgram = Except.ok c3Builder.program ∧
    dget? c3Builder.program.symbols "s" =
      some { name := "s", value := .vSplit c3Split, type_hint := some "SplitOperation" } ∧
    c3Split.output_names.length = 1 ∧
    c3Split.num_outputs = 2 ∧
    c3Split.offsets.length = 0 := by
  exact ⟨rfl, by decide, by decide, by decide, by decide⟩

/-- C3 amended: `build()` performs no split/join size validation.
`Program.validate` never inspects stored symbol values, so replacing a
stored split/join symbol by one with arbitrarily mis-sized lists cannot
change its outcome, and any builder whose program passes the checks
validate actually performs (cross-map duplicate names, worker
core-function resolution, FIFO producer/consumer tile membership) is
returned by `build()` unchanged. -/
theorem build_ignores_split_sizes :
    (∀ b : PBuilder, b.program.validate = [] →
      b.buildProgram = Except.ok b.program) ∧
    (∀ (p : Program) (name : String) (sym2 : Symbol),
      dmem p.symbols name = true →
      Program.validate { p with symbols := dinsert p.symbols name sym2 } =
        Program.validate p) := by
  constructor
  · intro b h
    unfold PBuilder.buildProgram
    simp [h]
  · intro p name sym2 h
    unfold Program.validate
    rw [show dkeys (dinsert p.symbols name sym2) = dkeys p.symbols from
      dkeys_dinsert_mem _ _ _ h]

theorem build_ignores_split_sizes_witness :
    c3Builder.program.validate = [] ∧
    c3Builder.buildProgram = Except.ok c3Builder.program ∧
    dmem c3Builder.program.symbols "s" = true ∧
    Program.validate { c3Builder.program with
      symbols := dinsert c3Builder.program.symbols "s"
        { name := "s", value := .vSplit c3Split, type_hint := some "x" } } =
      Program.validate c3Builder.program :=
  ⟨by decide,
   build_ignores_split_sizes.1 c3Builder (by decide),
   by decide,
   build_ignores_split_sizes.2 c3Builder.program "s"
     { name := "s", value := .vSplit c3Split, type_hint := some "x" } (by decide)⟩

/-! ## C4 -/

/-- The FIFO `add_fifo` actually constructs in the C4 counterexample. -/
def c4Fifo : ObjectFifo :=
  { name := "f", obj_type := .name "ty", depth := 2, producer := none,
    consumers := [] }

/-- C4 counterexample: `add_fifo` with the unresolved producer name
`"ghost"` and unresolved consumer name `"ghost2"` stores a FIFO with
`producer = None` and the consumer dropped — the opaque strings are not
preserved, contradicting the claim for `add_fifo`. -/
theorem add_fifo_drops_unresolved_refs :
    ((add_fifo (PBuilder.init "p") "f" (.name "ty") 2 (some (.name "ghost"))
        (some [.name "ghost2"])).2).component = some (.fifo c4Fifo) ∧
    dget? ((add_fifo (PBuilder.init "p") "f" (.name "ty") 2 (some (.name "ghost"))
        (some [.name "ghost2"])).1).program.fifos "f" = some c4Fifo ∧
    c4Fifo.producer = none ∧
    c4Fifo.consumers = [] := by
  decide

/-- C4 amended: name references in `add_fifo_split`, `add_fifo_forward`,
`add_worker` and `RuntimeBuilder.add_fill`/`add_drain` resolve against the
appropriate namespace map and fall through as the same opaque string when
unresolved; `add_fifo` however resolves `producer` with `tiles.get(name)`
(an unresolved name becomes `None`) and silently drops unresolved consumer
names, keeping resolved ones in order. -/
theorem reference_resolution_amended :
    -- add_fifo: producer becomes the `tiles.get` result (None when
    -- unresolved); consumers keep exactly the resolved tiles in order
    (∀ (b : PBuilder) n ot d s cs md, dmem b.program.fifos n = false →
      ∃ F : ObjectFifo,
        ((add_fifo b n ot d (some (.name s)) cs none md).2).component =
          some (.fifo F) ∧
        F.producer = dget? b.program.tiles s ∧
        F.consumers = (cs.getD []).filterMap (fun c =>
          match c with
          | .name s2 => dget? b.program.tiles s2
          | .tile t => some t)) ∧
    -- add_fifo_split: unresolved source and placement names preserved
    (∀ (b : PBuilder) n s no ot ons offs ps md,
      dmem b.program.symbols n = false →
      ∃ S : SplitOperation,
        ((add_fifo_split b n (.name s) no ot ons offs (.name ps) none md).2).component =
          some (.splitOp S) ∧
        (dget? b.program.fifos s = none → S.source = .name s) ∧
        (∀ f, dget? b.program.fifos s = some f → S.source = .ofifo f) ∧
        (dget? b.program.tiles ps = none → S.placement = .name ps) ∧
        (∀ t, dget? b.program.tiles ps = some t → S.placement = .tile t)) ∧
    -- add_fifo_forward: unresolved source preserved
    (∀ (b : PBuilder) n s md, dmem b.program.symbols n = false →
      ∃ F : ForwardOperation,
        ((add_fifo_forward b n (.name s) none md).2).component =
          some (.forwardOp F) ∧
        (dget? b.program.fifos s = none → F.source = .name s) ∧
        (∀ f, dget? b.program.fifos s = some f → F.source = .ofifo f)) ∧
    -- add_worker: unresolved core_fn, placement and bound fifo names preserved
    (∀ (b : PBuilder) n cf ps fs mode idx md,
      dmem b.program.workers n = false →
      ∃ W : Worker,
        ((add_worker b n (.name cf) [.tup (.name fs) mode idx] (.name ps)
          none md).2).component = some (.worker W) ∧
        (dget? b.program.core_functions cf = none → W.core_fn = .name cf) ∧
        (∀ c, dget? b.program.core_functions cf = some c → W.core_fn = .corefn c) ∧
        (dget? b.program.tiles ps = none → W.placement = .name ps) ∧
        (dget? b.program.fifos fs = none →
          W.fn_args = [.binding { fifo := .name fs, mode := mode, index := idx }])) ∧
    -- RuntimeBuilder.add_fill / add_drain: unresolved fifo and placement preserved
    (∀ (rb : RtBuilder) nm s ps sp tap md,
      dget? rb.prog_builder.program.fifos s = none →
      dget? rb.prog_builder.program.tiles ps = none →
      (rb.add_fill nm (.name s) sp (.name ps) tap md).runtime.operations =
        rb.runtime.operations ++
          [.fill { placement := .name ps, fifo := .name s, source_param := sp,
                   tap := tap, metadata := md }] ∧
      (rb.add_drain nm (.name s) sp (.name ps) true tap md).runtime.operations =
        rb.runtime.operations ++
          [.drain { placement := .name ps, fifo := .name s, dest_param := sp,
                    wait := true, tap := tap, metadata := md }]) := by
  refine ⟨?_, ?_, ?_, ?_, ?_⟩
  · intro b n ot d s cs md hdup
    refine ⟨{ name := n, obj_type := ot, depth := d,
              producer := dget? b.program.tiles s,
              consumers := (cs.getD []).filterMap (fun c =>
                match c with
                | .name s2 => dget? b.program.tiles s2
                | .tile t => some t),
              metadata := md }, ?_, rfl, rfl⟩
    simp only [add_fifo, pyTruthy_none, hdup, Bool.false_eq_true, ite_false]
    rfl
  · intro b n s no ot ons offs ps md hdup
    refine ⟨{ name := n, source := resolveFifoKeep b.program.fifos (.name s),
              num_outputs := no, output_type := ot, output_names := ons,
              offsets := offs,
              placement := resolveTileKeep b.program.tiles (.name ps),
              metadata := md }, ?_, ?_, ?_, ?_, ?_⟩
    · simp only [add_fifo_split, pyTruthy_none, hdup, Bool.false_eq_true, ite_false]
      rfl
    · intro h; simp [resolveFifoKeep, h]
    · intro f h; simp [resolveFifoKeep, h]
    · intro h; simp [resolveTileKeep, h]
    · intro t h; simp [resolveTileKeep, h]
  · intro b n s md hdup
    refine ⟨{ name := n, source := resolveFifoKeep b.program.fifos (.name s),
              metadata := md }, ?_, ?_, ?_⟩
    · simp only [add_fifo_forward, pyTruthy_none, hdup, Bool.false_eq_true, ite_false]
      rfl
    · intro h; simp [resolveFifoKeep, h]
    · intro f h; simp [resolveFifoKeep, h]
  · intro b n cf ps fs mode idx md hdup
    refine ⟨{ name := n, core_fn := resolveCoreFnKeep b.program.core_functions (.name cf),
              fn_args := [.binding { fifo := resolveFifoKeep b.program.fifos (.name fs),
                                     mode := mode, index := idx }],
              placement := resolveTileKeep b.program.tiles (.name ps),
              metadata := md }, ?_, ?_, ?_, ?_, ?_⟩
    · simp only [add_worker, pyTruthy_none, hdup, Bool.false_eq_true, ite_false]
      exact rfl
    · intro h; simp [resolveCoreFnKeep, h]
    · intro c h; simp [resolveCoreFnKeep, h]
    · intro h; simp [resolveTileKeep, h]
    · intro h; simp [resolveFifoKeep, h]
  · intro rb nm s ps sp tap md hf ht
    constructor
    · simp [RtBuilder.add_fill, resolveFifoKeep, resolveTileKeep, hf, ht]
    · simp [RtBuilder.add_drain, resolveFifoKeep, resolveTileKeep, hf, ht]

theorem reference_resolution_amended_witness :
    dmem (PBuilder.init "p").program.fifos "f" = false ∧
    (∃ F : ObjectFifo,
      ((add_fifo (PBuilder.init "p") "f" (.name "ty") 2 (some (.name "ghost"))
          (some [.name "ghost2"]) none []).2).component = some (.fifo F) ∧
      F.producer = dget? (PBuilder.init "p").program.tiles "ghost" ∧
      F.consumers = ((some [TilePlace.name "ghost2"]).getD []).filterMap (fun c =>
        match c with
        | .name s2 => dget? (PBuilder.init "p").program.tiles s2
        | .tile t => some t)) :=
  ⟨by decide,
   reference_resolution_amended.1 (PBuilder.init "p") "f" (.name "ty") 2 "ghost"
     (some [.name "ghost2"]) [] (by decide)⟩

/-! ## C5 -/

/-- The program map the duplicate check of a call consults
(`symbols` is shared by six namespaces). -/
def AddCall.inTargetMap (c : AddCall) (b : PBuilder) : Bool :=
  match c with
  | .symbol n _ _ _ => dmem b.program.symbols n
  | .tensor_type n _ _ _ => dmem b.program.symbols n
  | .tile n _ _ _ _ => dmem b.program.tiles n
  | .fifo n _ _ _ _ _ => dmem b.program.fifos n
  | .fifo_split n _ _ _ _ _ _ _ => dmem b.program.symbols n
  | .fifo_join n _ _ _ _ _ _ _ => dmem b.program.symbols n
  | .fifo_forward n _ _ => dmem b.program.symbols n
  | .external_kernel n _ _ _ _ _ => dmem b.program.external_kernels n
  | .core_function n _ _ _ _ _ => dmem b.program.core_functions n
  | .worker n _ _ _ _ => dmem b.program.workers n

/-- A builder holding the tensor type `n`. -/
def c5Builder : PBuilder :=
  (add_tensor_type (PBuilder.init "p") "n" [.num 4] .int32).1

/-- C5 counterexample: namespaces `tensor_type` and `fifo_split` are
distinct, yet `add_fifo_split` with the name of an existing tensor type
returns `DUPLICATE_NAME` — both entities live in `program.symbols`, so
uniqueness is not per namespace. -/
theorem per_namespace_uniqueness_fails :
    ((add_tensor_type (PBuilder.init "p") "n" [.num 4] .int32).2).success = true ∧
    (AddCall.tensor_type "n" [.num 4] .int32 none).ns ≠
      (AddCall.fifo_split "n" (.name "src") 2 (.name "t") ["a", "b"]
        [.num 0, .num 1] (.name "m0") []).ns ∧
    ((add_fifo_split c5Builder "n" (.name "src") 2 (.name "t") ["a", "b"]
        [.num 0, .num 1] (.name "m0")).2).success = false ∧
    ((add_fifo_split c5Builder "n" (.name "src") 2 (.name "t") ["a", "b"]
        [.num 0, .num 1] (.name "m0")).2).error_code =
      some ErrorCode.DUPLICATE_NAME := by
  decide

/-- C5 amended: name uniqueness is enforced per underlying program map,
not per namespace tag.  The namespaces `symbol`, `constant`,
`tensor_type`, `fifo_split`, `fifo_join` and `fifo_forward` all share
`program.symbols` and therefore collide with one another, while any
`add_*` whose own map does not hold the name succeeds regardless of the
other maps, receives a fresh id, and is registered under its own
`(namespace, name)` key without disturbing any other key of the
registry's name index. -/
theorem per_map_uniqueness (b : PBuilder) (c : AddCall)
    (hmap : c.inTargetMap b = false)
    (hidx : dmem b.nameIndex (c.ns, c.cname) = false) :
    ((applyAdd b c none).2).success = true ∧
    ((applyAdd b c none).2).id = some ("uuid-" ++ toString b.nextId) ∧
    dget? ((applyAdd b c none).1).nameIndex (c.ns, c.cname) =
      some ("uuid-" ++ toString b.nextId) ∧
    ∀ k, k ≠ (c.ns, c.cname) →
      dget? ((applyAdd b c none).1).nameIndex k = dget? b.nameIndex k := by
  have hidx2 : dget? b.nameIndex (c.ns, c.cname) = none :=
    dget?_eq_none_of_not_dmem _ _ hidx
  cases c <;>
  · simp only [applyAdd, AddCall.inTargetMap, AddCall.ns, AddCall.cname] at hmap hidx2 ⊢
    simp only [add_symbol, add_tensor_type, add_tile, add_fifo, add_fifo_split,
      add_fifo_join, add_fifo_forward, add_external_kernel, add_core_function,
      add_worker, add_finish, pyTruthy_none, hmap, Bool.false_eq_true, ite_false,
      register_component, hidx2, PBuilder.generateId]
    exact ⟨rfl, rfl, dget?_dinsert_self _ _ _, fun k hk => dget?_dinsert_ne _ _ _ _ hk⟩

/-- First step of the C5 amended witness: tile named `n`. -/
def c5w1 : PBuilder :=
  (applyAdd (PBuilder.init "p") (.tile "n" .shim 0 0 []) none).1

/-- Second step: fifo named `n` added on top of the tile `n`. -/
def c5w2 : PBuilder × BuilderResult :=
  applyAdd c5w1 (.fifo "n" (.name "t") 2 none none []) none

theorem per_map_uniqueness_witness :
    (AddCall.tile "n" .shim 0 0 []).inTargetMap (PBuilder.init "p") = false ∧
    dmem (PBuilder.init "p").nameIndex ("tile", "n") = false ∧
    ((applyAdd (PBuilder.init "p") (.tile "n" .shim 0 0 []) none).2).success = true ∧
    (AddCall.fifo "n" (.name "t") 2 none none []).inTargetMap c5w1 = false ∧
    dmem c5w1.nameIndex ("fifo", "n") = false ∧
    (c5w2.2).success = true ∧
    dget? (c5w2.1).nameIndex ("fifo", "n") =
      some ("uuid-" ++ toString c5w1.nextId) ∧
    dget? (c5w2.1).nameIndex ("tile", "n") =
      dget? c5w1.nameIndex ("tile", "n") := by
  have h1 := per_map_uniqueness (PBuilder.init "p") (.tile "n" .shim 0 0 [])
    (by decide) (by decide)
  have h2 := per_map_uniqueness c5w1 (.fifo "n" (.name "t") 2 none none [])
    (by decide) (by decide)
  exact ⟨by decide, by decide, h1.1, by decide, by decide, h2.1, h2.2.2.1,
    h2.2.2.2 ("tile", "n") (by decide)⟩

/-! ## C1 -/

/-- The common tail of every `add_*` update path: registering with a
truthy provided id present in the registry returns that id, rebinds it,
and leaves one name-index binding for the `(namespace, name)` key. -/
theorem add_tail_spec (b2 : PBuilder) (ct n : String) (regEnt resEnt : Entity)
    (pid : String) (hpid : pid ≠ "") (ot : String) (oc : Entity)
    (hget : dget? b2.idMap pid = some (ot, oc))
    (hcount : dcount b2.nameIndex (ct, n) ≤ 1) :
    ((add_finish b2 ct n regEnt resEnt (some pid)).2).success = true ∧
    ((add_finish b2 ct n regEnt resEnt (some pid)).2).id = some pid ∧
    lookup_by_id (add_finish b2 ct n regEnt resEnt (some pid)).1 pid =
      BuilderResult.ok pid regEnt ∧
    dget? ((add_finish b2 ct n regEnt resEnt (some pid)).1).nameIndex (ct, n) =
      some pid ∧
    dcount ((add_finish b2 ct n regEnt resEnt (some pid)).1).nameIndex (ct, n)
      = 1 := by
  unfold add_finish
  rw [register_component_provided_eq b2 ct n regEnt pid ot oc hpid hget]
  exact ⟨rfl, rfl,
    by simp only [lookup_by_id, dget?_dinsert_self],
    dget?_dinsert_self _ _ _,
    dcount_dinsert_self _ _ _ (register_nameIndex_count_le b2 ct n ot oc hcount)⟩

/-- C1: every `add_*` call with a truthy `provided_id` already present in
the ID registry succeeds, returns the same id, rebinds that id to the
newly created entity (so a subsequent `lookup_by_id` returns the new
entity), and leaves exactly one name-index binding for the call's
`(namespace, name)` key, pointing at the provided id. -/
theorem provided_id_update_preserves_id (b : PBuilder) (c : AddCall) (pid : String)
    (hpid : pid ≠ "") (hmem : dmem b.idMap pid = true)
    (hcount : dcount b.nameIndex (c.ns, c.cname) ≤ 1) :
    ((applyAdd b c (some pid)).2).success = true ∧
    ((applyAdd b c (some pid)).2).id = some pid ∧
    lookup_by_id (applyAdd b c (some pid)).1 pid =
      BuilderResult.ok pid (registeredEntity b c) ∧
    dget? ((applyAdd b c (some pid)).1).nameIndex (c.ns, c.cname) = some pid ∧
    dcount ((applyAdd b c (some pid)).1).nameIndex (c.ns, c.cname) = 1 := by
  obtain ⟨⟨ot, oc⟩, hget⟩ := dget?_isSome_of_dmem _ _ hmem
  cases c <;>
  · simp only [applyAdd, AddCall.ns, AddCall.cname, registeredEntity] at hcount ⊢
    simp only [add_symbol, add_tensor_type, add_tile, add_fifo, add_fifo_split,
      add_fifo_join, add_fifo_forward, add_external_kernel, add_core_function,
      add_worker, pyTruthy_some pid hpid, hget]
    revert hcount
    split <;> (try split) <;> (try split) <;> intro hcount <;>
      (apply add_tail_spec <;> first | exact hpid | exact hget | exact hcount)

/-- The C1 concrete scenario: `add_tensor_type("chunk_ty", [1024], int32)`
yielding id `uuid-0`. -/
def c1Builder : PBuilder :=
  (add_tensor_type (PBuilder.init "p") "chunk_ty" [.num 1024] .int32).1

/-- The second call of the C1 scenario: same name, shape `[2048]`, with
the id of the first call provided. -/
def c1Call : AddCall := .tensor_type "chunk_ty" [.num 2048] .int32 none

theorem provided_id_update_preserves_id_witness :
    ("uuid-0" ≠ ("" : String)) ∧
    dmem c1Builder.idMap "uuid-0" = true ∧
    dcount c1Builder.nameIndex (c1Call.ns, c1Call.cname) ≤ 1 ∧
    (((applyAdd c1Builder c1Call (some "uuid-0")).2).success = true ∧
     ((applyAdd c1Builder c1Call (some "uuid-0")).2).id = some "uuid-0" ∧
     lookup_by_id (applyAdd c1Builder c1Call (some "uuid-0")).1 "uuid-0" =
       BuilderResult.ok "uuid-0" (registeredEntity c1Builder c1Call) ∧
     dget? ((applyAdd c1Builder c1Call (some "uuid-0")).1).nameIndex
       (c1Call.ns, c1Call.cname) = some "uuid-0" ∧
     dcount ((applyAdd c1Builder c1Call (some "uuid-0")).1).nameIndex
       (c1Call.ns, c1Call.cname) = 1) ∧
    lookup_by_id (applyAdd c1Builder c1Call (some "uuid-0")).1 "uuid-0" ≠
      lookup_by_id c1Builder "uuid-0" :=
  ⟨by decide, by decide, by decide,
   provided_id_update_preserves_id c1Builder c1Call "uuid-0"
     (by decide) (by decide) (by decide),
   by decide⟩

/-! ## C6 -/

/-- C6: the split chains produced by `_transform_split` carry offsets
`(tensor.numel() // (d * num_outputs)) * i` for `i = 0 .. num_outputs-1`,
where `tensor` is the JIT parameter the `data` letter maps to and `d` is
the source FIFO type's divisor (1 when the type is unknown, via the
`.getD` fallbacks); join chains use `dest_type_divisor * num_inputs`
symmetrically; and the divisor table records `d` for a type whose shape
text splits on `/` into two parts with integer second part, and 1 for a
nonempty shape with no division. -/
theorem split_join_offset_derivation :
    (∀ (st : TState) (e : SplitElem),
      chainMethodKwargList (transform_split st e).1 "split" "offsets" =
        (pyRange e.num_outputs).map (offsetExprXml
          (get_tensor_ref st.tensor_refs ((dget? e.attrs "data").getD ""))
          (((dget? st.type_divisors
              ((dget? st.objectfifo_types e.source).getD "data_ty")).getD 1) *
            e.num_outputs))) ∧
    (∀ (st : TState) (j : JoinElem),
      chainMethodKwargList (transform_join st j).1 "join" "offsets" =
        (pyRange j.num_inputs).map (offsetExprXml
          (get_tensor_ref st.tensor_refs ((dget? j.attrs "data").getD ""))
          (((dget? st.type_divisors
              ((dget? st.objectfifo_types j.dest).getD "data_ty")).getD 1) *
            j.num_inputs))) ∧
    (∀ (nm txt p0 p1 : String) (d : Int), txt ≠ "" →
      pyContainsChar '/' (pyStrip txt) = true →
      pySplitChar '/' (pyStrip txt) = [p0, p1] →
      pyInt? (pyStrip p1) = some d →
      dget? (extract_type_divisors [(nm, some txt)]) nm = some d) ∧
    (∀ (nm txt : String), txt ≠ "" →
      pyContainsChar '/' (pyStrip txt) = false →
      dget? (extract_type_divisors [(nm, some txt)]) nm = some 1) := by
  refine ⟨fun st e => rfl, fun st j => rfl, ?_, ?_⟩
  · intro nm txt p0 p1 d hne hslash hsplit hint
    simp only [extract_type_divisors, List.foldl, hne, ne_eq, not_false_iff,
      ite_true, hslash, hsplit, hint]
    simp [dinsert, dget?_cons]
  · intro nm txt hne hslash
    simp only [extract_type_divisors, List.foldl, hne, ne_eq, not_false_iff,
      ite_true, hslash, Bool.false_eq_true, ite_false]
    simp [dinsert, dget?_cons]

/-- A concrete transformer state for the C6 witness: `memtile_ty` has
shape `N / 16`, the source FIFO `of_in` has that type, and the JIT
parameter map binds `A` to `inputA`. -/
def c6State : TState :=
  { symbols := [("N", "4096")],
    tensor_refs := [("A", "inputA")],
    objectfifo_names := [("of_in", "SHIM_L3_L2_A1A2_col0")],
    objectfifo_types := [("of_in", "memtile_ty")],
    type_divisors := extract_type_divisors [("memtile_ty", some "N / 16")] }

/-- The C6 concrete split: 4 outputs of `of_in`, data letter `A`. -/
def c6Split : SplitElem :=
  { name := "split_a", source := "of_in", num_outputs := 4,
    output_type := "chunk_ty", placement := "Tile(0, 1)",
    attrs := [("data", "A"), ("column", "0"), ("context", "L2_L1")] }

theorem split_join_offset_derivation_witness :
    dget? (extract_type_divisors [("memtile_ty", some "N / 16")]) "memtile_ty" =
      some 16 ∧
    chainMethodKwargList (transform_split c6State c6Split).1 "split" "offsets" =
      (pyRange 4).map (offsetExprXml "inputA" 64) ∧
    ("N / 16" ≠ "") ∧ pyContainsChar '/' (pyStrip "N / 16") = true ∧
    pySplitChar '/' (pyStrip "N / 16") = ["N ", " 16"] ∧
    pyInt? (pyStrip " 16") = some 16 := by
  refine ⟨?_, ?_, by decide, by decide, by decide, by decide⟩
  · exact split_join_offset_derivation.2.2.1 "memtile_ty" "N / 16" "N " " 16" 16
      (by decide) (by decide) (by decide) (by decide)
  · have h := split_join_offset_derivation.1 c6State c6Split
    rw [h]
    rfl

/-! ## C7: shape-expression expansion -/

/-- C7 counterexample.  The spec says every input other than the listed
shapes is passed through verbatim, but a division whose numerator is NOT
a declared constant is still rewritten to integer-division form:
`"M / 4"` (with `M` undeclared) becomes `"((M) // 4)"`. -/
theorem expander_rewrites_undeclared_division :
    dget? [("data_size", "128")] "M" = none ∧
    expand_shape_expression [("data_size", "128")] "M / 4" (some "inputA") =
      "((M) // 4)" ∧
    "((M) // 4)" ≠ "M / 4" := by
  refine ⟨rfl, rfl, by decide⟩

/-- C7 amended.  `expand_shape_expression` behaves as follows: a bare
declared constant becomes `(<tensor>.numel())` with a (truthy) tensor
reference and its literal value without one; any expression with exactly
one `/` whose two parts strip to `numerator` and `denominator` becomes
`((<numerator expansion>) // denominator)`, where the numerator expansion
is `<tensor>.numel()` for a declared numerator with a tensor reference,
the numerator's declared value without one, and the stripped numerator
text itself when it is undeclared; an undeclared expression with no `/`
(in particular a literal integer) is returned verbatim; and an undeclared
expression with a number of parts other than two is returned verbatim. -/
theorem expand_shape_expression_cases :
    (∀ (syms : Dict String String) (expr v tr : String), tr ≠ "" →
      dget? syms expr = some v →
      expand_shape_expression syms expr (some tr) =
        "(" ++ tr ++ ".numel())") ∧
    (∀ (syms : Dict String String) (expr v : String),
      dget? syms expr = some v →
      expand_shape_expression syms expr none = v) ∧
    (∀ (syms : Dict String String) (expr p0 p1 v tr : String), tr ≠ "" →
      dget? syms expr = none →
      pyContainsChar '/' expr = true →
      pySplitChar '/' expr = [p0, p1] →
      dget? syms (pyStrip p0) = some v →
      expand_shape_expression syms expr (some tr) =
        "((" ++ (tr ++ ".numel()") ++ ") // " ++ pyStrip p1 ++ ")") ∧
    (∀ (syms : Dict String String) (expr p0 p1 v : String),
      dget? syms expr = none →
      pyContainsChar '/' expr = true →
      pySplitChar '/' expr = [p0, p1] →
      dget? syms (pyStrip p0) = some v →
      expand_shape_expression syms expr none =
        "((" ++ v ++ ") // " ++ pyStrip p1 ++ ")") ∧
    (∀ (syms : Dict String String) (expr p0 p1 : String)
      (tensor_ref : Option String),
      dget? syms expr = none →
      pyContainsChar '/' expr = true →
      pySplitChar '/' expr = [p0, p1] →
      dget? syms (pyStrip p0) = none →
      expand_shape_expression syms expr tensor_ref =
        "((" ++ pyStrip p0 ++ ") // " ++ pyStrip p1 ++ ")") ∧
    (∀ (syms : Dict String String) (expr : String)
      (tensor_ref : Option String),
      dget? syms expr = none →
      pyContainsChar '/' expr = false →
      expand_shape_expression syms expr tensor_ref = expr) ∧
    (∀ (syms : Dict String String) (expr : String)
      (tensor_ref : Option String) (ps : List String),
      dget? syms expr = none →
      pyContainsChar '/' expr = true →
      pySplitChar '/' expr = ps →
      (∀ p0 p1, ps ≠ [p0, p1]) →
      expand_shape_expression syms expr tensor_ref = expr) := by
  refine ⟨?_, ?_, ?_, ?_, ?_, ?_, ?_⟩
  · intro syms expr v tr htr hsym
    simp only [expand_shape_expression, hsym, pyTruthy_some tr htr]
  · intro syms expr v hsym
    simp only [expand_shape_expression, hsym, pyTruthy_none]
  · intro syms expr p0 p1 v tr htr hsym hslash hsplit hnum
    simp only [expand_shape_expression, hsym, hslash, if_true, hsplit, hnum,
      pyTruthy_some tr htr]
  · intro syms expr p0 p1 v hsym hslash hsplit hnum
    simp only [expand_shape_expression, hsym, hslash, if_true, hsplit, hnum,
      pyTruthy_none]
  · intro syms expr p0 p1 tensor_ref hsym hslash hsplit hnum
    simp only [expand_shape_expression, hsym, hslash, if_true, hsplit, hnum]
  · intro syms expr tensor_ref hsym hslash
    simp only [expand_shape_expression, hsym, hslash, Bool.false_eq_true,
      if_false]
  · intro syms expr tensor_ref ps hsym hslash hsplit hne
    simp only [expand_shape_expression, hsym, hslash, if_true, hsplit]

theorem expand_shape_expression_cases_witness :
    expand_shape_expression [("data_size", "128")] "data_size"
      (some "inputA") = "(inputA.numel())" ∧
    expand_shape_expression [("data_size", "128")] "data_size" none =
      "128" ∧
    expand_shape_expression [("data_size", "128")] "data_size / 4"
      (some "inputA") = "((inputA.numel()) // 4)" ∧
    expand_shape_expression [("data_size", "128")] "data_size / 4" none =
      "((128) // 4)" ∧
    expand_shape_expression [("data_size", "128")] "M / 4" none =
      "((M) // 4)" ∧
    expand_shape_expression [("data_size", "128")] "128" (some "inputA") =
      "128" ∧
    expand_shape_expression [("data_size", "128")] "a / b / c" none =
      "a / b / c" := by
  refine ⟨?_, ?_, ?_, ?_, ?_, ?_, ?_⟩
  · exact expand_shape_expression_cases.1 [("data_size", "128")]
      "data_size" "128" "inputA" (by decide) rfl
  · exact expand_shape_expression_cases.2.1 [("data_size", "128")]
      "data_size" "128" rfl
  · exact expand_shape_expression_cases.2.2.1 [("data_size", "128")]
      "data_size / 4" "data_size " " 4" "128" "inputA" (by decide) rfl
      (by decide) (by decide) rfl
  · exact expand_shape_expression_cases.2.2.2.1 [("data_size", "128")]
      "data_size / 4" "data_size " " 4" "128" rfl (by decide) (by decide) rfl
  · exact expand_shape_expression_cases.2.2.2.2.1 [("data_size", "128")]
      "M / 4" "M " " 4" none rfl (by decide) (by decide) rfl
  · exact expand_shape_expression_cases.2.2.2.2.2.1 [("data_size", "128")]
      "128" (some "inputA") rfl (by decide)
  · exact expand_shape_expression_cases.2.2.2.2.2.2 [("data_size", "128")]
      "a / b / c" none ["a ", " b ", " c"] rfl (by decide) (by decide)
      (fun p0 p1 h => by simp at h)

/-! ## C8: scope management -/

/-- C8 counterexample.  The spec says declaring a name already present in
the top frame is a no-op, but the shadowing branch is checked first: when
the name is also bound in an outer frame, the top-frame binding is
overwritten with the new node id, so the stack changes. -/
theorem declare_top_duplicate_not_noop :
    dmem [("x", "n2")] "x" = true ∧
    declare_symbol [[("x", "n1")], [("x", "n2")]] (some "x") "n3" =
      [[("x", "n1")], [("x", "n3")]] ∧
    [[("x", "n1")], [("x", "n3")]] ≠ [[("x", "n1")], [("x", "n2")]] := by
  refine ⟨rfl, rfl, by decide⟩

/-- C8 amended.  Declaring a name bound in some outer frame leaves the
outer frames unchanged and binds the name to the new node id in the top
frame (shadowing) — even when the top frame already binds it; declaring a
name bound in the top frame and in no outer frame is a no-op; lookup
scans frames innermost-first, returning the first binding and skipping
frames without one; looking up an absent or empty name is an error; and
the expression walker instead creates a `VarRef` node for a variable
reference without consulting any scope. -/
theorem scope_rules :
    (∀ (stack : List Frame) (name nid : String),
      stack.dropLast.any (fun s => dmem s name) = true →
      (declare_symbol stack (some name) nid).dropLast = stack.dropLast ∧
      dget? ((declare_symbol stack (some name) nid).getLastD []) name =
        some nid) ∧
    (∀ (stack : List Frame) (name nid : String),
      stack.dropLast.any (fun s => dmem s name) = false →
      dmem (stack.getLastD []) name = true →
      declare_symbol stack (some name) nid = stack) ∧
    (∀ (name : String) (f : Frame) (rest : List Frame) (v : String),
      dget? f name = some v → lookup_frames name (f :: rest) = some v) ∧
    (∀ (name : String) (f : Frame) (rest : List Frame),
      dget? f name = none →
      lookup_frames name (f :: rest) = lookup_frames name rest) ∧
    (∀ (stack : List Frame) (name v : String), name ≠ "" →
      lookup_frames name stack.reverse = some v →
      scope_lookup stack name = .ok v) ∧
    (∀ (stack : List Frame) (name : String), name ≠ "" →
      lookup_frames name stack.reverse = none →
      scope_lookup stack name = .error ("Undefined symbol: " ++ name)) ∧
    (∀ (stack : List Frame),
      scope_lookup stack "" = .error "Empty name in lookup") ∧
    (∀ (g : GGraph) (t : String), pyStrip t ≠ "" →
      walk_var g (some t) none =
        ((g.addNode (pyStrip t) "VarRef").1,
         some (g.addNode (pyStrip t) "VarRef").2)) := by
  refine ⟨?_, ?_, ?_, ?_, ?_, ?_, ?_, ?_⟩
  · intro stack name nid houter
    simp only [declare_symbol, houter, if_true, List.dropLast_concat,
      List.getLastD_concat, dget?_dinsert_self]
    exact ⟨trivial, trivial⟩
  · intro stack name nid houter htop
    simp only [declare_symbol, houter, Bool.false_eq_true, if_false, htop,
      if_true]
  · intro name f rest v h
    simp only [lookup_frames, h]
  · intro name f rest h
    simp only [lookup_frames, h]
  · intro stack name v hne h
    simp only [scope_lookup, hne, if_false, h]
  · intro stack name hne h
    simp only [scope_lookup, hne, if_false, h]
  · intro stack
    simp [scope_lookup]
  · intro g t h
    unfold walk_var
    rw [if_pos h]

theorem scope_rules_witness :
    ((List.any [[("x", "n1")]]
        (fun s => dmem s "x") = true) ∧
      (declare_symbol [[("x", "n1")], [("y", "n2")]] (some "x")
          "n3").dropLast = [[("x", "n1")]] ∧
      dget? ((declare_symbol [[("x", "n1")], [("y", "n2")]] (some "x")
          "n3").getLastD []) "x" = some "n3") ∧
    declare_symbol [[("y", "n1")], [("x", "n2")]] (some "x") "n9" =
      [[("y", "n1")], [("x", "n2")]] ∧
    lookup_frames "x" [[("x", "a")], [("x", "b")]] = some "a" ∧
    lookup_frames "x" [[("y", "a")], [("x", "b")]] =
      lookup_frames "x" [[("x", "b")]] ∧
    scope_lookup [[("x", "b")], [("x", "a")]] "x" = .ok "a" ∧
    scope_lookup [[("y", "a")]] "x" = .error "Undefined symbol: x" ∧
    scope_lookup [[("y", "a")]] "" = .error "Empty name in lookup" ∧
    walk_var (⟨[], [], 0⟩ : GGraph) (some " foo ") none =
      (((⟨[], [], 0⟩ : GGraph).addNode "foo" "VarRef").1,
       some (((⟨[], [], 0⟩ : GGraph).addNode "foo" "VarRef").2)) := by
  refine ⟨⟨by decide, ?_⟩, ?_, ?_, ?_, ?_, ?_, ?_, ?_⟩
  · have h := scope_rules.1 [[("x", "n1")], [("y", "n2")]] "x" "n3"
      (by decide)
    exact ⟨h.1, h.2⟩
  · exact scope_rules.2.1 [[("y", "n1")], [("x", "n2")]] "x" "n9"
      (by decide) (by decide)
  · exact scope_rules.2.2.1 "x" [("x", "a")] [[("x", "b")]] "a" rfl
  · exact scope_rules.2.2.2.1 "x" [("y", "a")] [[("x", "b")]] rfl
  · exact scope_rules.2.2.2.2.1 [[("x", "b")], [("x", "a")]] "x" "a"
      (by decide) rfl
  · exact scope_rules.2.2.2.2.2.1 [[("y", "a")]] "x" (by decide) rfl
  · exact scope_rules.2.2.2.2.2.2.1 [[("y", "a")]]
  · exact scope_rules.2.2.2.2.2.2.2 (⟨[], [], 0⟩ : GGraph) " foo "
      (by decide)

/-! ## C9: branch-edge provenance -/

/-- Every `then`/`else` edge of `g` originates at a node of kind `If`. -/
def branchInv (g : GGraph) : Prop :=
  ∀ src dst lbl, dget? g.edges (src, dst) = some lbl →
    (lbl = "then" ∨ lbl = "else") → g.kindOf src = some "If"

/-- The relabel loop of `_func_if` preserves the branch invariant when
the relabelled node `i` is an `If` node. -/
theorem relabel_fold_inv (g : GGraph) (i lbl : String)
    (hkind : g.kindOf i = some "If") (targets : List String) :
    ∀ (es : Dict (String × String) String),
    (∀ s d l, dget? es (s, d) = some l → (l = "then" ∨ l = "else") →
      g.kindOf s = some "If") →
    ∀ s d l,
      dget? (targets.foldl (fun es tgt =>
        if dget? es (i, tgt) = some "contains" then dinsert es (i, tgt) lbl
        else es) es) (s, d) = some l →
      (l = "then" ∨ l = "else") → g.kindOf s = some "If" := by
  induction targets with
  | nil => intro es hes; exact hes
  | cons tgt rest ih =>
    intro es hes
    simp only [List.foldl_cons]
    apply ih
    intro s d l hget hl
    by_cases hc : dget? es (i, tgt) = some "contains"
    · rw [if_pos hc] at hget
      by_cases hk : (s, d) = (i, tgt)
      · have hs : s = i := congrArg Prod.fst hk
        rw [hs]
        exact hkind
      · rw [dget?_dinsert_ne _ _ _ _ hk] at hget
        exact hes s d l hget hl
    · rw [if_neg hc] at hget
      exact hes s d l hget hl

/-- One well-formed mutation preserves the branch invariant. -/
theorem branchInv_step (g : GGraph) (op : GOp)
    (hop : match op with
     | .addNode nid _ _ => dmem g.nodes nid = false
     | .link _ _ t => t ≠ "then" ∧ t ≠ "else"
     | .relabelBranch i _ lbl =>
       g.kindOf i = some "If" ∧ (lbl = "then" ∨ lbl = "else"))
    (hinv : branchInv g) : branchInv (applyGOp g op) := by
  cases op with
  | addNode nid label kind =>
    intro src dst lbl hget hl
    have hk := hinv src dst lbl hget hl
    have hne : src ≠ nid := by
      intro e
      rw [e, GGraph.kindOf, dget?_eq_none_of_not_dmem _ _ hop] at hk
      exact Option.noConfusion hk
    show (dget? (dinsert g.nodes nid (label, kind)) src).map Prod.snd =
      some "If"
    rw [dget?_dinsert_ne _ _ _ _ hne]
    exact hk
  | link s0 d0 t =>
    intro src dst lbl hget hl
    simp only [applyGOp] at hget ⊢
    by_cases hg : s0 ≠ "" ∧ d0 ≠ "" ∧ t ≠ ""
    · rw [if_pos hg] at hget ⊢
      by_cases hk : (src, dst) = (s0, d0)
      · rw [hk, dget?_dinsert_self] at hget
        cases hget
        rcases hl with h | h
        · exact absurd h hop.1
        · exact absurd h hop.2
      · rw [dget?_dinsert_ne _ _ _ _ hk] at hget
        exact hinv src dst lbl hget hl
    · rw [if_neg hg] at hget ⊢
      exact hinv src dst lbl hget hl
  | relabelBranch i targets lbl0 =>
    intro src dst lbl hget hl
    exact relabel_fold_inv g i lbl0 hop.1 targets g.edges hinv src dst lbl
      hget hl

/-- A well-formed trace preserves the branch invariant. -/
theorem branchInv_run (g : GGraph) (ops : List GOp) (hwf : WfTrace g ops)
    (hinv : branchInv g) : branchInv (runGOps g ops) := by
  induction ops generalizing g with
  | nil => exact hinv
  | cons op rest ih =>
    exact ih (applyGOp g op) hwf.2 (branchInv_step g op hwf.1 hinv)

/-- C9: in any graph built by a well-formed mutation trace from the empty
graph, every `then` or `else` edge originates at a node of kind `If`, and
no ordered pair carries both a `contains` edge and a `then`/`else` edge
(the edge map of a `DiGraph` stores one type per ordered pair). -/
theorem branch_edges_originate_at_if (ops : List GOp)
    (hwf : WfTrace ⟨[], [], 0⟩ ops) :
    (∀ src dst lbl,
      dget? (runGOps ⟨[], [], 0⟩ ops).edges (src, dst) = some lbl →
      (lbl = "then" ∨ lbl = "else") →
      (runGOps ⟨[], [], 0⟩ ops).kindOf src = some "If") ∧
    (∀ src dst,
      ¬(dget? (runGOps ⟨[], [], 0⟩ ops).edges (src, dst) =
          some "contains" ∧
        (dget? (runGOps ⟨[], [], 0⟩ ops).edges (src, dst) = some "then" ∨
         dget? (runGOps ⟨[], [], 0⟩ ops).edges (src, dst) =
           some "else"))) := by
  constructor
  · exact branchInv_run ⟨[], [], 0⟩ ops hwf (fun s d l h0 _ => nomatch h0)
  · rintro src dst ⟨hc, hte⟩
    rcases hte with h | h <;> rw [hc] at h <;>
      exact absurd (Option.some.inj h) (by decide)

/-- The C9 witness trace: build an `If` node, link its branch block with
a `contains` edge, then relabel that edge to `then`. -/
def c9Ops : List GOp :=
  [.addNode "If_1" "if" "If",
   .addNode "Block_2" "block" "Block",
   .link "If_1" "Block_2" "contains",
   .relabelBranch "If_1" ["Block_2"] "then"]

theorem branch_edges_originate_at_if_witness :
    WfTrace ⟨[], [], 0⟩ c9Ops ∧
    dget? (runGOps ⟨[], [], 0⟩ c9Ops).edges ("If_1", "Block_2") =
      some "then" ∧
    (runGOps ⟨[], [], 0⟩ c9Ops).kindOf "If_1" = some "If" := by
  have hwf : WfTrace ⟨[], [], 0⟩ c9Ops :=
    ⟨by decide, by decide, by decide, by decide, trivial⟩
  refine ⟨hwf, by decide, ?_⟩
  exact (branch_edges_originate_at_if c9Ops hwf).1 "If_1" "Block_2" "then"
    (by decide) (Or.inl rfl)

end IRONSmith
